import Mathlib

/-!
Shallow embedding of the cTAKES-mCODE extraction core, translated from
`src/outputs/csv_generator.py` and `src/outputs/llm_disambiguator.py`.

Conventions of the embedding:
* Python strings are `List Char` (`Str`), slicing and `in` are explicit helpers;
* the mCODE field table (`self.mcode_data`, a Python dict keyed by string
  literals) is an association list updated in extractor order;
* every field extractor is a function from the adapter data to the list of
  key/value assignments it performs, mirroring the source statement by
  statement; `populate_from_ctakes` folds those assignments in source order;
* numeric values that the Python code holds as floats (tumor dimensions,
  radiotherapy doses, all small decimal literals) are modelled as rationals —
  exact for every input evaluated in this development;
* the external LLM completion call (`DateDisambiguator._call_ollama`) is an
  oracle `Str → Except Unit Str`; a `.error` result models the request
  exception that the Python code catches at each call site;
* Python exceptions escaping an extractor are modelled by `Except PyExn`:
  the `KeyError` of `e['text']` on a dict lacking the key (the adapter
  supplies the five known entity categories well-formed, structure
  `EntityT`, while additional categories, which only
  `_extract_negated_findings` iterates, are kept raw — `RawEntity`, with an
  optional `text` key), and the `AttributeError` of
  `med.get('preferred_text', '').lower()` when the adapter stored `None`
  for a medication without a coded concept.
-/

abbrev Str := List Char

def s2l (s : String) : Str := s.toList

def lowerStr (s : Str) : Str := s.map Char.toLower

def upperStr (s : Str) : Str := s.map Char.toUpper

/-- Python `needle == hay[:len(needle)]`. -/
def isPre : Str → Str → Bool
  | [], _ => true
  | _ :: _, [] => false
  | a :: as, b :: bs => a = b && isPre as bs

/-- Case-insensitive prefix test (used for `re.IGNORECASE` literals). -/
def isPreCI : Str → Str → Bool
  | [], _ => true
  | _ :: _, [] => false
  | a :: as, b :: bs => Char.toLower a = Char.toLower b && isPreCI as bs

/-- Python `needle in hay` (substring containment). -/
def containsSub (needle : Str) : Str → Bool
  | [] => isPre needle []
  | c :: t => isPre needle (c :: t) || containsSub needle t

/-- Python slice `s[a:b]` for `0 ≤ a ≤ b` (clamped at both ends). -/
def sliceStr (s : Str) (a b : Nat) : Str := (s.drop a).take (b - a)

/-- Python `str.isspace` characters relevant to `\s` and `str.strip()`. -/
def isSpaceCh (c : Char) : Bool :=
  c = ' ' || c = '\t' || c = '\n' || c = '\r' || c = '\x0b' || c = '\x0c'

/-- Python `str.strip()`. -/
def pyStrip (s : Str) : Str :=
  ((s.dropWhile isSpaceCh).reverse.dropWhile isSpaceCh).reverse

def isDigitCh (c : Char) : Bool := '0' ≤ c && c ≤ '9'

def isAlphaCh (c : Char) : Bool := ('a' ≤ c && c ≤ 'z') || ('A' ≤ c && c ≤ 'Z')

/-- Regex word character `[a-zA-Z0-9_]` (for `\b`). -/
def isWordCh (c : Char) : Bool := isAlphaCh c || isDigitCh c || c = '_'

/-- Python `sep.join(xs)`. -/
def joinSep (sep : Str) : List Str → Str
  | [] => []
  | [x] => x
  | x :: y :: xs => x ++ sep ++ joinSep sep (y :: xs)

def digitsVal (ds : Str) : Nat :=
  ds.foldl (fun a c => 10 * a + (c.toNat - ('0').toNat)) 0

/-- An exact decimal value `num / den` (`den` a power of ten): the model of
the float values the source parses from dimension and dose matches.  All
evaluated inputs are exact in both this and the float semantics. -/
structure DecNum where
  num : Nat
  den : Nat
deriving DecidableEq

/-- Value of `float(intDs ++ "." ++ fracDs)` for decimal digit strings. -/
def decVal (intDs fracDs : Str) : DecNum :=
  ⟨digitsVal (intDs ++ fracDs), 10 ^ fracDs.length⟩

/-- `value / 10.0` (the millimeter-to-centimeter conversion). -/
def decDiv10 (v : DecNum) : DecNum := ⟨v.num, v.den * 10⟩

/-- Exact comparison of two decimal values (`a > b` on the floats). -/
def decGT (a b : DecNum) : Bool := decide (b.num * a.den < a.num * b.den)

/-- Python `x or d` for an optional string `x` (`None` and `''` falsy). -/
def pyOrStr (o : Option Str) (d : Str) : Str :=
  match o with
  | some s => if s = [] then d else s
  | none => d

/-- Python `dict.get(k, '')` convention: `None` becomes `''`. -/
def pyOptStr (o : Option Str) : Str := o.getD []

/-- Python truthiness of an optional string. -/
def pyTruthyO (o : Option Str) : Bool :=
  match o with
  | some s => decide (s ≠ [])
  | none => false

/-- Keep an optional string only when Python would treat it as truthy. -/
def truthyOpt (o : Option Str) : Option Str :=
  match o with
  | some s => if s = [] then none else some s
  | none => none

/-- Deduplicate, first occurrence kept, `seen` keyed on `.lower()`
(the medication-name dedup loop). -/
def dedupLowerGo (seen : List Str) : List Str → List Str
  | [] => []
  | x :: xs =>
    if seen.any (· = lowerStr x) then dedupLowerGo seen xs
    else x :: dedupLowerGo (lowerStr x :: seen) xs

/-- Deduplicate, first occurrence kept, `seen` keyed on `.upper()`
(the radiotherapy-modality dedup loop). -/
def dedupUpperGo (seen : List Str) : List Str → List Str
  | [] => []
  | x :: xs =>
    if seen.any (· = upperStr x) then dedupUpperGo seen xs
    else x :: dedupUpperGo (upperStr x :: seen) xs

/-- First-occurrence dedup by exact value.  Models Python's `set(xs)` used
only for deduplication before a join (the set's own iteration order is
hash-dependent; this embedding fixes first-occurrence order). -/
def dedupEqGo (seen : List Str) : List Str → List Str
  | [] => []
  | x :: xs =>
    if seen.any (· = x) then dedupEqGo seen xs
    else x :: dedupEqGo (x :: seen) xs

/-- Stable insertion of `x` before the first element not strictly greater:
together with `sortDescBy` this reproduces Python's stable
`sorted(..., reverse=True)`. -/
def insDescBy (gt : α → α → Bool) (x : α) : List α → List α
  | [] => [x]
  | y :: ys => if gt y x then y :: insDescBy gt x ys else x :: y :: ys

/-- Stable descending sort (Python `sorted(key=..., reverse=True)`). -/
def sortDescBy (gt : α → α → Bool) : List α → List α
  | [] => []
  | x :: xs => insDescBy gt x (sortDescBy gt xs)

/-- Python `max(xs, key=lambda p: p[0])`: first maximum wins. -/
def pyMaxByFst (x : DecNum × Str) (xs : List (DecNum × Str)) : DecNum × Str :=
  xs.foldl (fun best y => if decGT y.1 best.1 then y else best) x

/-! ## Data model (adapter output, `src/parsers/xmi_parser.py` shapes) -/

/-- An entity dict from `XMIParser.extract_entities` restricted to the keys
the CSV generator reads.  `preferredText`/`primaryCui` are `None` when the
entity carries no coded concept. -/
structure EntityT where
  id : Str
  text : Str
  beginPos : Nat
  negated : Bool
  subject : Str
  historyOf : Int
  preferredText : Option Str
  primaryCui : Option Str
deriving DecidableEq

/-- An entity dict of an extra category (beyond the five the adapter emits),
as `_extract_negated_findings` may encounter: the `text` key can be absent. -/
structure RawEntity where
  negated : Bool
  text : Option Str
deriving DecidableEq

/-- A `location_of`/`degree_of` relation dict. -/
structure RelT where
  sourceId : Str
  targetId : Str
  sourceText : Str
  targetText : Str
deriving DecidableEq

/-- A temporal relation dict (`_parse_temporal_relation`). -/
structure TRelT where
  sourceId : Str
  targetId : Str
  category : Str
deriving DecidableEq

/-- A time mention dict. -/
structure TimeM where
  id : Str
  beginPos : Nat
  endPos : Nat
  text : Str
  timeClass : Str
deriving DecidableEq

/-- An event dict (keys the core reads). -/
structure EventT where
  id : Str
  text : Str
deriving DecidableEq

/-- A sentence dict. -/
structure SentenceT where
  beginPos : Nat
  endPos : Nat
  text : Str
deriving DecidableEq

/-- The `entities` argument of `populate_from_ctakes`: the five adapter
categories (in the adapter's dict insertion order) plus any extra raw
categories, which only the negated-findings scan iterates. -/
structure EntitiesT where
  diseases : List EntityT
  medications : List EntityT
  procedures : List EntityT
  anatomicalSites : List EntityT
  signsSymptoms : List EntityT
  extras : List (Str × List RawEntity)
deriving DecidableEq

structure RelationsT where
  locationOf : List RelT
  degreeOf : List RelT
deriving DecidableEq

structure TemporalT where
  timeMentions : List TimeM
  events : List EventT
  temporalRelations : List TRelT
deriving DecidableEq

/-- Configuration values the core reads (after Python's `.get` defaults). -/
structure ConfigT where
  includeCuisFile : Bool
  llmEnable : Bool
  sentenceWindow : Nat
  enableThinking : Bool
deriving DecidableEq

/-- A Python exception escaping a field extractor in this model: `KeyError`
from `d['k']` on a dict lacking the key, and `AttributeError` from calling a
method (`.lower()`) on a stored `None`. -/
inductive PyExn where
  | keyError (k : Str)
  | attributeError (attr : Str)
deriving DecidableEq

/-- The external completion service (`_call_ollama`): prompt in, response
text out, or a transport exception. -/
abbrev Ollama := Str → Except Unit Str

/-! ## The mCODE field table -/

abbrev FMap := List (Str × Str)

/-- Python dict assignment `m[k] = v` (overwrite in place, else append). -/
def setK : FMap → Str → Str → FMap
  | [], k, v => [(k, v)]
  | (k', v') :: rest, k, v =>
    if k' = k then (k, v) :: rest else (k', v') :: setK rest k v

/-- Python `m.get(k)`. -/
def getK (m : FMap) (k : Str) : Option Str :=
  (m.find? (fun p => p.1 = k)).map (·.2)

def applyAsgs (m : FMap) (asgs : List (Str × Str)) : FMap :=
  asgs.foldl (fun acc p => setK acc p.1 p.2) m

/-- One conditional assignment: `[(k, v)]` when the source assigns, `[]`
when it does not. -/
def optA (k : Str) (v : Option Str) : List (Str × Str) :=
  match v with
  | some s => [(k, s)]
  | none => []

/-! ## Regex scanners

Each Python regex of the source is hand-compiled to a matcher over
`List Char` with Python's leftmost, first-alternative, greedy-with-backtrack
semantics.  Wherever a greedy sub-match is implemented without backtracking,
the following character classes make backtracking unable to change the
outcome (the give-back character can never start the continuation).
Scan drivers advance one character on failure and resume after the match end
on success (non-overlapping `finditer`/`findall`), with a fuel argument that
always suffices because every match consumes at least one character. -/

/-- Alternatives of `(cm|mm|centimeters?|millimeters?)` in the regex
preference order (greedy `s?`: the `s`-bearing form first). -/
def dimUnitAlts : List Str :=
  [s2l ("cm"), s2l ("mm"), s2l ("centimeters"), s2l ("centimeter"),
   s2l ("millimeters"), s2l ("millimeter")]

def doseUnitAlts : List Str := [s2l ("Gy"), s2l ("Gray")]

def fracAlts : List Str := [s2l ("fractions"), s2l ("fraction"), s2l ("fx")]

/-- `\b` to the right of a token ending in a word character. -/
def boundaryOk (rest : Str) : Bool :=
  match rest with
  | [] => true
  | c :: _ => !isWordCh c

/-- First alternative that matches case-insensitively and passes the
trailing `\b`; returns the matched original slice and the remainder. -/
def tryUnitsAt (alts : List Str) (s : Str) : Option (Str × Str) :=
  match alts with
  | [] => none
  | u :: us =>
    if isPreCI u s && boundaryOk (s.drop u.length) then
      some (s.take u.length, s.drop u.length)
    else tryUnitsAt us s

structure NumUnit where
  consumed : Nat
  intDs : Str
  hasDot : Bool
  fracDs : Str
  unitText : Str
deriving DecidableEq

/-- One attempt of `(\d+\.?\d*)\s*(UNITS)\b` at the current position. -/
def numUnitMatchAt (alts : List Str) (s : Str) : Option NumUnit :=
  let d1 := s.takeWhile isDigitCh
  if d1 = [] then none else
  let r1 := s.drop d1.length
  let dotted : Bool × Str :=
    match r1 with
    | '.' :: t => (true, t)
    | _ => (false, r1)
  let d2 := dotted.2.takeWhile isDigitCh
  let r3 := dotted.2.drop d2.length
  let r4 := r3.drop (r3.takeWhile isSpaceCh).length
  match tryUnitsAt alts r4 with
  | some (u, r5) => some ⟨s.length - r5.length, d1, dotted.1, d2, u⟩
  | none => none

structure DimMatch where
  startPos : Nat
  stopPos : Nat
  numIntDs : Str
  numFracDs : Str
  unitLower : Str
deriving DecidableEq

/-- `re.finditer` of the tumor-dimension pattern, keeping match positions
for the context windows. -/
def dimScanGo : Nat → Nat → Str → List DimMatch
  | 0, _, _ => []
  | fuel + 1, pos, s =>
    match s with
    | [] => []
    | _ :: t =>
      match numUnitMatchAt dimUnitAlts s with
      | some nu =>
        ⟨pos, pos + nu.consumed, nu.intDs, nu.fracDs, lowerStr nu.unitText⟩ ::
          (if nu.consumed = 0 then dimScanGo fuel (pos + 1) t
           else dimScanGo fuel (pos + nu.consumed) (s.drop nu.consumed))
      | none => dimScanGo fuel (pos + 1) t

def dimScan (s : Str) : List DimMatch := dimScanGo (s.length + 1) 0 s

/-- `re.findall` of the dose pattern: (number text, unit text) pairs. -/
def doseScanGo : Nat → Str → List (Str × Str)
  | 0, _ => []
  | fuel + 1, s =>
    match s with
    | [] => []
    | _ :: t =>
      match numUnitMatchAt doseUnitAlts s with
      | some nu =>
        (nu.intDs ++ (if nu.hasDot then ['.'] else []) ++ nu.fracDs, nu.unitText) ::
          (if nu.consumed = 0 then doseScanGo fuel t else doseScanGo fuel (s.drop nu.consumed))
      | none => doseScanGo fuel t

def doseScan (s : Str) : List (Str × Str) := doseScanGo (s.length + 1) s

/-- One attempt of `(\d+)\s*(?:fractions?|fx)\b`. -/
def fracMatchAt (s : Str) : Option (Str × Nat) :=
  let d1 := s.takeWhile isDigitCh
  if d1 = [] then none else
  let r1 := s.drop d1.length
  let r2 := r1.drop (r1.takeWhile isSpaceCh).length
  match tryUnitsAt fracAlts r2 with
  | some (_, r3) => some (d1, s.length - r3.length)
  | none => none

def fracScanGo : Nat → Str → List Str
  | 0, _ => []
  | fuel + 1, s =>
    match s with
    | [] => []
    | _ :: t =>
      match fracMatchAt s with
      | some (g, k) => g :: (if k = 0 then fracScanGo fuel t else fracScanGo fuel (s.drop k))
      | none => fracScanGo fuel t

def fracScan (s : Str) : List Str := fracScanGo (s.length + 1) s

/-- The modality lexicon in the order the source joins it into one
alternation. -/
def modalityAlts : List Str :=
  [s2l ("IMRT"), s2l ("VMAT"), s2l ("3D-CRT"), s2l ("3DCRT"), s2l ("SBRT"),
   s2l ("SRS"), s2l ("IGRT"), s2l ("proton"), s2l ("brachytherapy"),
   s2l ("electron"), s2l ("photon"), s2l ("intensity.modulated"),
   s2l ("volumetric.modulated"), s2l ("stereotactic")]

/-- Case-insensitive literal where `.` is the regex wildcard (any character
except a newline), as in `intensity.modulated`. -/
def isPreCIDot : Str → Str → Bool
  | [], _ => true
  | _ :: _, [] => false
  | a :: as, b :: bs =>
    (if a = '.' then decide (b ≠ '\n') else decide (Char.toLower a = Char.toLower b))
      && isPreCIDot as bs

def modMatchAt (s : Str) : Option (Str × Nat) :=
  modalityAlts.findSome? fun alt =>
    if isPreCIDot alt s && boundaryOk (s.drop alt.length) then
      some (s.take alt.length, alt.length)
    else none

/-- `\b(...)\b` scan: every alternative starts and ends with a word
character, so the left boundary holds exactly when the previous character is
not a word character. -/
def modScanGo : Nat → Option Char → Str → List Str
  | 0, _, _ => []
  | fuel + 1, prev, s =>
    match s with
    | [] => []
    | c :: t =>
      if (match prev with | some p => isWordCh p | none => false) then
        modScanGo fuel (some c) t
      else
        match modMatchAt s with
        | some (g, k) =>
          g :: (if k = 0 then modScanGo fuel (some c) t
                else modScanGo fuel ((s.take k).getLast?) (s.drop k))
        | none => modScanGo fuel (some c) t

def modScan (s : Str) : List Str := modScanGo (s.length + 1) none s

/-! ### TNM staging patterns -/

def clsPfxCh (c : Char) : Bool :=
  Char.toLower c = 'c' || Char.toLower c = 'p' || Char.toLower c = 'y' ||
  Char.toLower c = 'r' || Char.toLower c = 'm'

def clsTDigit (c : Char) : Bool := ('0' ≤ c && c ≤ '4') || c = 'X' || c = 'x'

def clsNDigit (c : Char) : Bool := ('0' ≤ c && c ≤ '3') || c = 'X' || c = 'x'

def clsMDigit (c : Char) : Bool := ('0' ≤ c && c ≤ '1') || c = 'X' || c = 'x'

def clsAD (c : Char) : Bool := ('a' ≤ c && c ≤ 'd') || ('A' ≤ c && c ≤ 'D')

def clsAC (c : Char) : Bool := ('a' ≤ c && c ≤ 'c') || ('A' ≤ c && c ≤ 'C')

def clsIS (c : Char) : Bool := c = 'i' || c = 's' || c = 'I' || c = 'S'

/-- Greedy optional single-character class.  In every use below the class is
disjoint from the character the continuation requires, so consuming greedily
cannot lose a match the backtracking engine would find. -/
def optC (p : Char → Bool) (s : Str) : Option Char × Str :=
  match s with
  | c :: t => if p c then (some c, t) else (none, c :: t)
  | [] => (none, [])

structure TnmMatch where
  pfx : Str
  tMain : Char
  tSub : Option Char
  tIns : Option Char
  nMain : Char
  nSub : Option Char
  mMain : Char
  mSub : Option Char
deriving DecidableEq

/-- The concatenated pattern after the optional prefix:
`T([0-4Xx])([a-d])?([is])?N([0-3Xx])([a-c])?M([0-1Xx])([a-c])?`
(case-insensitive). -/
def matchTnmCore (s : Str) : Option (TnmMatch × Str) :=
  match s with
  | c1 :: r1 =>
    if c1 = 'T' || c1 = 't' then
      match r1 with
      | c2 :: r2 =>
        if clsTDigit c2 then
          let p3 := optC clsAD r2
          let p4 := optC clsIS p3.2
          match p4.2 with
          | c5 :: r5 =>
            if c5 = 'N' || c5 = 'n' then
              match r5 with
              | c6 :: r6 =>
                if clsNDigit c6 then
                  let p7 := optC clsAC r6
                  match p7.2 with
                  | c8 :: r8 =>
                    if c8 = 'M' || c8 = 'm' then
                      match r8 with
                      | c9 :: r9 =>
                        if clsMDigit c9 then
                          let p10 := optC clsAC r9
                          some (⟨[], c2, p3.1, p4.1, c6, p7.1, c9, p10.1⟩, p10.2)
                        else none
                      | [] => none
                    else none
                  | [] => none
                else none
              | [] => none
            else none
          | [] => none
        else none
      | [] => none
    else none
  | [] => none

/-- `([cpyrm]?)` + core: the greedy prefixed attempt first, then the
unprefixed attempt at the same position. -/
def matchTnmAt (s : Str) : Option (TnmMatch × Nat) :=
  match s with
  | c :: t =>
    if clsPfxCh c then
      match matchTnmCore t with
      | some (core, rest) => some ({ core with pfx := [c] }, s.length - rest.length)
      | none =>
        match matchTnmCore (c :: t) with
        | some (core, rest) => some (core, s.length - rest.length)
        | none => none
    else
      match matchTnmCore (c :: t) with
      | some (core, rest) => some (core, s.length - rest.length)
      | none => none
  | [] => none

def tnmScanGo : Nat → Str → List TnmMatch
  | 0, _ => []
  | fuel + 1, s =>
    match s with
    | [] => []
    | _ :: t =>
      match matchTnmAt s with
      | some (m, k) => m :: (if k = 0 then tnmScanGo fuel t else tnmScanGo fuel (s.drop k))
      | none => tnmScanGo fuel t

def tnmScan (s : Str) : List TnmMatch := tnmScanGo (s.length + 1) s

def optUp : Option Char → Str
  | some c => [Char.toUpper c]
  | none => []

def tnmTCode (m : TnmMatch) : Str :=
  lowerStr m.pfx ++ ['T', Char.toUpper m.tMain] ++ optUp m.tSub ++ optUp m.tIns

def tnmNCode (m : TnmMatch) : Str :=
  lowerStr m.pfx ++ ['N', Char.toUpper m.nMain] ++ optUp m.nSub

def tnmMCode (m : TnmMatch) : Str :=
  lowerStr m.pfx ++ ['M', Char.toUpper m.mMain] ++ optUp m.mSub

/-- `prefix_priority.get(prefix, 0)` applied to the lowered prefix. -/
def pfxRank (p : Str) : Int :=
  match p with
  | [] => 0
  | c :: _ =>
    if c = 'p' then 5 else if c = 'y' then 4 else if c = 'c' then 3
    else if c = 'r' then 2 else if c = 'm' then 1 else 0

/-- The Strategy-1 selection loop: start at priority `-1`, replace only on a
strictly higher prefix priority. -/
def tnmBestGo : List TnmMatch → Option (Str × Str × Str) → Int → Option (Str × Str × Str)
  | [], best, _ => best
  | m :: ms, best, bp =>
    let p := pfxRank (lowerStr m.pfx)
    if p > bp then tnmBestGo ms (some (tnmTCode m, tnmNCode m, tnmMCode m)) p
    else tnmBestGo ms best bp

def tnmBest (ms : List TnmMatch) : Option (Str × Str × Str) := tnmBestGo ms none (-1)

structure TIndMatch where
  pfx : Str
  main : Char
  sub1 : Option Char
  sub2 : Option Char
deriving DecidableEq

/-- `(?=\s|$|[,;.])`. -/
def lookaheadOk (s : Str) : Bool :=
  match s with
  | [] => true
  | c :: _ => isSpaceCh c || c = ',' || c = ';' || c = '.'

/-- Strategy-2 T component after the prefix:
`T([0-4Xx])([a-d])?([is])?(?=\s|$|[,;.])`. -/
def matchTIndCore (s : Str) : Option (TIndMatch × Nat) :=
  match s with
  | c1 :: r1 =>
    if c1 = 'T' || c1 = 't' then
      match r1 with
      | c2 :: r2 =>
        if clsTDigit c2 then
          let p3 := optC clsAD r2
          let p4 := optC clsIS p3.2
          if lookaheadOk p4.2 then some (⟨[], c2, p3.1, p4.1⟩, s.length - p4.2.length)
          else none
        else none
      | [] => none
    else none
  | [] => none

/-- Strategy-2 N/M component after the prefix (one optional suffix class). -/
def matchIndNMCore (letter : Char) (dig : Char → Bool) (subCls : Char → Bool)
    (s : Str) : Option (TIndMatch × Nat) :=
  match s with
  | c1 :: r1 =>
    if Char.toLower c1 = letter then
      match r1 with
      | c2 :: r2 =>
        if dig c2 then
          let p3 := optC subCls r2
          if lookaheadOk p3.2 then some (⟨[], c2, p3.1, none⟩, s.length - p3.2.length)
          else none
        else none
      | [] => none
    else none
  | [] => none

def matchIndAt (core : Str → Option (TIndMatch × Nat)) (s : Str) :
    Option (TIndMatch × Nat) :=
  match s with
  | c :: t =>
    if clsPfxCh c then
      match core t with
      | some (m, k) => some ({ m with pfx := [c] }, k + 1)
      | none => core (c :: t)
    else core (c :: t)
  | [] => none

/-- Strategy-2 scan with the `(?<![a-zA-Z])` lookbehind: a position whose
previous character is a letter cannot start a match. -/
def indScanGo (core : Str → Option (TIndMatch × Nat)) :
    Nat → Option Char → Str → List TIndMatch
  | 0, _, _ => []
  | fuel + 1, prev, s =>
    match s with
    | [] => []
    | c :: t =>
      if (match prev with | some p => isAlphaCh p | none => false) then
        indScanGo core fuel (some c) t
      else
        match matchIndAt core s with
        | some (m, k) =>
          m :: (if k = 0 then indScanGo core fuel (some c) t
                else indScanGo core fuel ((s.take k).getLast?) (s.drop k))
        | none => indScanGo core fuel (some c) t

def tIndScan (s : Str) : List TIndMatch := indScanGo matchTIndCore (s.length + 1) none s

def nIndScan (s : Str) : List TIndMatch :=
  indScanGo (matchIndNMCore 'n' clsNDigit clsAC) (s.length + 1) none s

def mIndScan (s : Str) : List TIndMatch :=
  indScanGo (matchIndNMCore 'm' clsMDigit clsAC) (s.length + 1) none s

/-- `prefix + category_letter + ''.join(g.upper() for g in groups if g)`. -/
def indCode (letter : Char) (m : TIndMatch) : Str :=
  lowerStr m.pfx ++ [letter, Char.toUpper m.main] ++ optUp m.sub1 ++ optUp m.sub2

/-- `select_best`: stable descending sort on prefix priority, first element. -/
def selBest (letter : Char) (ms : List TIndMatch) : Option Str :=
  match ms with
  | [] => none
  | _ =>
    let staged := ms.map (fun m => (pfxRank (lowerStr m.pfx), indCode letter m))
    match sortDescBy (fun a b => decide (a.1 > b.1)) staged with
    | (_, code) :: _ => some code
    | [] => none

/-! ### Date and response parsing -/

/-- `re.search(r'\b20\d{2}\b', s)` as a Boolean. -/
def year20Go : Nat → Option Char → Str → Bool
  | 0, _, _ => false
  | fuel + 1, prev, s =>
    match s with
    | [] => false
    | c :: t =>
      let prevW := (match prev with | some p => isWordCh p | none => false)
      (!prevW && (match s with
        | '2' :: '0' :: d3 :: d4 :: rest =>
          isDigitCh d3 && isDigitCh d4 && boundaryOk rest
        | _ => false))
      || year20Go fuel (some c) t

def hasYear20 (s : Str) : Bool := year20Go (s.length + 1) none s

/-- `re.search(r'\b(\d+)\b', s)`: the first standalone digit run. -/
def firstIntGo : Nat → Option Char → Str → Option Str
  | 0, _, _ => none
  | fuel + 1, prev, s =>
    match s with
    | [] => none
    | c :: t =>
      let prevW := (match prev with | some p => isWordCh p | none => false)
      if !prevW && isDigitCh c then
        let ds := s.takeWhile isDigitCh
        if boundaryOk (s.drop ds.length) then some ds
        else firstIntGo fuel (some c) t
      else firstIntGo fuel (some c) t

def firstInt (s : Str) : Option Str := firstIntGo (s.length + 1) none s

/-- Earliest `</think>` (the lazy `.*?`); remainder after it. -/
def findCloseThink : Nat → Str → Option Str
  | 0, _ => none
  | fuel + 1, s =>
    match s with
    | [] => none
    | _ :: t =>
      if isPre (s2l ("</think>")) s then some (s.drop 8)
      else findCloseThink fuel t

/-- `re.sub(r'<think>.*?</think>', '', s, flags=re.DOTALL)`. -/
def removeThinkGo : Nat → Str → Str
  | 0, s => s
  | fuel + 1, s =>
    match s with
    | [] => []
    | c :: t =>
      if isPre (s2l ("<think>")) s then
        match findCloseThink (s.length + 1) (s.drop 7) with
        | some rest => removeThinkGo fuel rest
        | none => c :: removeThinkGo fuel t
      else c :: removeThinkGo fuel t

/-- `_strip_thinking`: both configuration branches strip the thinking block
and `.strip()` the result, so the flag does not change the output. -/
def stripThinking (resp : Str) : Str :=
  pyStrip (removeThinkGo (resp.length + 1) resp)

/-! ### Radiotherapy body-site patterns

These three patterns contain a lazy group loop and optional sub-groups whose
failure must backtrack, so they are implemented with ordered candidate lists
(`List Str` of possible remainders, regex preference order, first overall
success wins). -/

def wsRunLen (s : Str) : Nat := (s.takeWhile isSpaceCh).length

def alphaRunLen (s : Str) : Nat := (s.takeWhile isAlphaCh).length

/-- Candidate remainders after `\s+`, greedy (longest) first. -/
def runsWsPlus (s : Str) : List Str :=
  let n := wsRunLen s
  (List.range n).map (fun i => s.drop (n - i))

/-- All alternatives of a literal alternation matching at `s`, in order. -/
def altsCI (ws : List Str) (s : Str) : List Str :=
  ws.filterMap (fun w => if isPreCI w s then some (s.drop w.length) else none)

def toPatHeadAlts : List Str :=
  [s2l ("IMRT"), s2l ("VMAT"), s2l ("radiation"), s2l ("radiotherapy"),
   s2l ("irradiation")]

/-- Tail alternation `(?:\s+with|\s*,|\s*\.|\s+for)` of the `to` pattern. -/
def toPatTail (s : Str) : Option Str :=
  let n := wsRunLen s
  let a := s.drop n
  if n ≥ 1 && isPreCI (s2l ("with")) a then some (a.drop 4)
  else
    match a with
    | ',' :: r => some r
    | '.' :: r => some r
    | _ => if n ≥ 1 && isPreCI (s2l ("for")) a then some (a.drop 3) else none

/-- One iteration `(?:\s+(?:and\s+)?[a-zA-Z]+)` of the lazy word loop:
ordered candidate remainders (the `and`-bearing parse first). -/
def toPatBody (s : Str) : List Str :=
  let n := wsRunLen s
  if n = 0 then []
  else
    let a := s.drop n
    let withAnd : Option Str :=
      if isPreCI (s2l ("and")) a then
        let b := a.drop 3
        let m := wsRunLen b
        if m = 0 then none
        else
          let c := b.drop m
          let w := alphaRunLen c
          if w = 0 then none else some (c.drop w)
      else none
    let withoutAnd : Option Str :=
      let w := alphaRunLen a
      if w = 0 then none else some (a.drop w)
    withAnd.toList ++ withoutAnd.toList

/-- The lazy loop: fewest iterations first; returns (remainder at the group
end, remainder after the consumed tail). -/
def toPatLoop : Nat → Str → Option (Str × Str)
  | 0, _ => none
  | fuel + 1, s =>
    match toPatTail s with
    | some r => some (s, r)
    | none => (toPatBody s).findSome? (fun s' => toPatLoop fuel s')

/-- Everything before the capture group of the `to` pattern
(`(?:IMRT|VMAT|radiation|radiotherapy|irradiation)\s+(?:\([^)]+\)\s+)?to\s+(?:the\s+)?`):
ordered candidate remainders at the group start. -/
def toPatPre (s : Str) : List Str :=
  (altsCI toPatHeadAlts s).flatMap fun r1 =>
    let n := wsRunLen r1
    if n = 0 then []
    else
      let r2 := r1.drop n
      let parenCand : List Str :=
        match r2 with
        | '(' :: rest =>
          let m := (rest.takeWhile (fun c => decide (c ≠ ')'))).length
          if m ≥ 1 then
            match rest.drop m with
            | ')' :: r3 =>
              let n2 := wsRunLen r3
              if n2 ≥ 1 then [r3.drop n2] else []
            | _ => []
          else []
        | _ => []
      (parenCand ++ [r2]).flatMap fun r4 =>
        if isPreCI (s2l ("to")) r4 then
          let r5 := r4.drop 2
          let n3 := wsRunLen r5
          if n3 = 0 then []
          else
            let r6 := r5.drop n3
            let theCand : List Str :=
              if isPreCI (s2l ("the")) r6 then
                let r7 := r6.drop 3
                let n4 := wsRunLen r7
                if n4 ≥ 1 then [r7.drop n4] else []
              else []
            theCand ++ [r6]
        else []

/-- One attempt of the full `to` pattern: (group text, consumed length). -/
def toPatAt (s : Str) : Option (Str × Nat) :=
  (toPatPre s).findSome? fun gStart =>
    let w := alphaRunLen gStart
    if w = 0 then none
    else
      match toPatLoop (gStart.length + 1) (gStart.drop w) with
      | some (gEnd, rest) =>
        some (gStart.take (gStart.length - gEnd.length), s.length - rest.length)
      | none => none

/-- `(whole\s+[a-zA-Z]+)\s+(?:radiation|radiotherapy|irradiation)`. -/
def wholePatAt (s : Str) : Option (Str × Nat) :=
  if isPreCI (s2l ("whole")) s then
    let r1 := s.drop 5
    let n := wsRunLen r1
    if n = 0 then none
    else
      let r2 := r1.drop n
      let w := alphaRunLen r2
      if w = 0 then none
      else
        let r3 := r2.drop w
        let m := wsRunLen r3
        if m = 0 then none
        else
          match (altsCI [s2l ("radiation"), s2l ("radiotherapy"),
              s2l ("irradiation")] (r3.drop m)).head? with
          | some rest => some (s.take (5 + n + w), s.length - rest.length)
          | none => none
  else none

/-- `([a-zA-Z]+\s+(?:nodal\s+)?(?:region(?:s)?)?)\s+(?:radiation|irradiation)`,
with backtracking over the whitespace runs and the optional groups. -/
def siteFirstAt (s : Str) : Option (Str × Nat) :=
  let w := alphaRunLen s
  if w = 0 then none
  else
    (runsWsPlus (s.drop w)).findSome? fun b =>
      let nodalCands : List Str :=
        if isPreCI (s2l ("nodal")) b then runsWsPlus (b.drop 5) else []
      (nodalCands ++ [b]).findSome? fun c =>
        let regionCands : List Str :=
          if isPreCI (s2l ("regions")) c then [c.drop 7, c.drop 6]
          else if isPreCI (s2l ("region")) c then [c.drop 6]
          else []
        (regionCands ++ [c]).findSome? fun d =>
          let m := wsRunLen d
          if m = 0 then none
          else
            match (altsCI [s2l ("radiation"), s2l ("irradiation")] (d.drop m)).head? with
            | some rest =>
              some (s.take (s.length - d.length), s.length - rest.length)
            | none => none

/-- `re.findall` driver for a group-capturing pattern. -/
def patScanGo (patAt : Str → Option (Str × Nat)) : Nat → Str → List Str
  | 0, _ => []
  | fuel + 1, s =>
    match s with
    | [] => []
    | _ :: t =>
      match patAt s with
      | some (g, k) =>
        g :: (if k = 0 then patScanGo patAt fuel t else patScanGo patAt fuel (s.drop k))
      | none => patScanGo patAt fuel t

def toScan (s : Str) : List Str := patScanGo toPatAt (s.length + 1) s

def wholeScan (s : Str) : List Str := patScanGo wholePatAt (s.length + 1) s

def siteFirstScan (s : Str) : List Str := patScanGo siteFirstAt (s.length + 1) s

/-! ## Field extractors (`MCODECSVGenerator`) -/

def familyMarkers : List Str :=
  [s2l ("maternal"), s2l ("paternal"), s2l ("mother"), s2l ("father"),
   s2l ("sister"), s2l ("brother"), s2l ("aunt"), s2l ("uncle"),
   s2l ("grandmother"), s2l ("grandfather"), s2l ("cousin"),
   s2l ("family history"), s2l ("family member"), s2l ("relative"),
   s2l ("daughter"), s2l ("son")]

/-- `_is_family_history_mention`: any kinship marker in the 50 characters
before the entity's start offset (clamped to the document start). -/
def isFamilyHistoryMention (docText : Str) (e : EntityT) : Bool :=
  if docText = [] then false
  else
    let ctx := lowerStr (sliceStr docText (e.beginPos - 50) e.beginPos)
    familyMarkers.any (fun m => containsSub m ctx)

/-- The disease filter of `_extract_tumor_info` (the full active-patient
filter: negation, subject, historicity, family-history context). -/
def filteredDiseases (docText : Str) (ent : EntitiesT) : List EntityT :=
  ent.diseases.filter (fun e =>
    !e.negated && decide (e.subject = s2l ("patient")) && decide (e.historyOf = 0) &&
      !isFamilyHistoryMention docText e)

def cancerTerms : List Str :=
  [s2l ("cancer"), s2l ("carcinoma"), s2l ("adenocarcinoma"), s2l ("tumor"),
   s2l ("neoplasm"), s2l ("malignant")]

def primaryCancerCandidates (docText : Str) (ent : EntitiesT) : List EntityT :=
  (filteredDiseases docText ent).filter (fun d =>
    cancerTerms.any (fun t => containsSub t (lowerStr d.text)))

/-- `score_morphology`. -/
def scoreMorphology (c : EntityT) : ℚ :=
  let t := lowerStr c.text
  (if containsSub (s2l ("invasive")) t then 3 else 0)
  + (if containsSub (s2l ("ductal")) t || containsSub (s2l ("lobular")) t then 2 else 0)
  + (if containsSub (s2l ("squamous")) t || containsSub (s2l ("medullary")) t then 2 else 0)
  + (if containsSub (s2l ("mucinous")) t || containsSub (s2l ("tubular")) t then 2 else 0)
  + (if containsSub (s2l ("papillary")) t || containsSub (s2l ("serous")) t then 2 else 0)
  + (if containsSub (s2l ("grade")) t || containsSub (s2l ("differentiated")) t
       then (3 : ℚ) / 2 else 0)
  + (if containsSub (s2l ("metastatic")) t then (3 : ℚ) / 2 else 0)
  + (if containsSub (s2l ("adenocarcinoma")) t then 1 else 0)
  + (if containsSub (s2l ("carcinoma")) t && !containsSub (s2l ("adenocarcinoma")) t
       then (1 : ℚ) / 2 else 0)
  + (if containsSub (s2l ("suspected")) t || containsSub (s2l ("possible")) t
       then -2 else 0)

/-- The sort key `(score_morphology(c), len(c['text']), -c.get('begin', 0))`. -/
def entKey (c : EntityT) : ℚ × ℕ × ℤ :=
  (scoreMorphology c, c.text.length, -(c.beginPos : ℤ))

/-- Strict lexicographic comparison of sort keys (Python tuple order). -/
def keyGT (a b : ℚ × ℕ × ℤ) : Bool :=
  decide (a.1 > b.1 ∨ (a.1 = b.1 ∧ (a.2.1 > b.2.1 ∨ (a.2.1 = b.2.1 ∧ a.2.2 > b.2.2))))

def entGT (a b : EntityT) : Bool := keyGT (entKey a) (entKey b)

/-- `sorted(primary_cancers, key=..., reverse=True)` (stable). -/
def sortedCancers (docText : Str) (ent : EntitiesT) : List EntityT :=
  sortDescBy entGT (primaryCancerCandidates docText ent)

def anatomyBlacklist : List Str :=
  [s2l ("squamous"), s2l ("squamous cell"), s2l ("cell"), s2l ("cells"),
   s2l ("adenocarcinoma"), s2l ("carcinoma"), s2l ("sarcoma"), s2l ("melanoma"),
   s2l ("lymphoma"), s2l ("leukemia"), s2l ("neoplasm"), s2l ("tumor"),
   s2l ("tumour"), s2l ("malignant"), s2l ("benign"), s2l ("invasive"),
   s2l ("metastatic"), s2l ("primary"), s2l ("secondary"), s2l ("grade"),
   s2l ("stage"), s2l ("keratinizing"), s2l ("non-keratinizing"),
   s2l ("differentiated"), s2l ("ductal"), s2l ("lobular"), s2l ("papillary"),
   s2l ("mucinous"), s2l ("serous"), s2l ("disease"), s2l ("lesion"),
   s2l ("mass"), s2l ("nodule"), s2l ("cancer"), s2l ("oral")]

def isValidBodySite (site : Str) : Bool := !anatomyBlacklist.any (· = lowerStr site)

/-- The body-site resolution loop: first non-`metastatic` cancer mention in
score order having a `LOCATION_OF` relation (as source) whose target passes
the anatomy blacklist. -/
def findBodySiteRel (locRels : List RelT) : List EntityT → Option Str
  | [] => none
  | c :: rest =>
    if containsSub (s2l ("metastatic")) (lowerStr c.text) then
      findBodySiteRel locRels rest
    else
      match locRels.find? (fun r => decide (r.sourceId = c.id) && isValidBodySite r.targetText) with
      | some r => some r.targetText
      | none => findBodySiteRel locRels rest

/-- Fallback: first anatomical-site entity in document order passing the
blacklist. -/
def findBodySiteFallback (anats : List EntityT) : Option Str :=
  (anats.find? (fun a => isValidBodySite a.text)).map (·.text)

/-- `_extract_tumor_info` (the unreachable duplicate selection branch after
`_is_family_history_mention`'s `return` is not reproduced). -/
def extractTumorInfo (ent : EntitiesT) (rels : RelationsT) (docText : Str) :
    List (Str × Str) :=
  match sortedCancers docText ent with
  | [] => []
  | primary :: restSorted =>
    let site : Option Str :=
      match findBodySiteRel rels.locationOf (primary :: restSorted) with
      | some st => some st
      | none => findBodySiteFallback ent.anatomicalSites
    optA (s2l ("primary_cancer_histology_morphology"))
        (some (pyOrStr primary.preferredText primary.text)) ++
    optA (s2l ("primary_cancer_cui")) (truthyOpt primary.primaryCui) ++
    optA (s2l ("primary_cancer_body_site")) site ++
    optA (s2l ("tumor_body_location")) site

def medBlacklist : List Str :=
  [s2l ("pack"), s2l ("tablet"), s2l ("capsule"), s2l ("dose"), s2l ("iv"),
   s2l ("pill"), s2l ("unit"), s2l ("vial"), s2l ("oral dosage form"),
   s2l ("dosage form"), s2l ("dental dosage form"), s2l ("ethanol"),
   s2l ("alcohol"), s2l ("tobacco"), s2l ("cigarette"), s2l ("smoking"),
   s2l ("pharmaceutical preparations"), s2l ("drug"), s2l ("medication"),
   s2l ("alkalies"), s2l ("proteins"), s2l ("fluorides"), s2l ("today"),
   s2l ("yesterday"), s2l ("week"), s2l ("month"), s2l ("contrast media"),
   s2l ("fluorodeoxyglucose f18"), s2l ("fdg"),
   s2l ("human papilloma virus vaccine"), s2l ("hpv vaccine"), s2l ("vaccine"),
   s2l ("antibodies, antinuclear"), s2l ("ana"),
   s2l ("cytidine monophosphate"), s2l ("cmp")]

def tumorMarkerCuis : List Str := [s2l ("C0069515")]

/-- The per-medication loop of `_extract_medications`.  The adapter always
stores the `preferred_text` key, with `None` for a medication without a
coded concept, so `med.get('preferred_text', '').lower()` is `None.lower()`
and raises `AttributeError` for every non-negated CUI-less medication —
before any blacklist `continue` can fire. -/
def medFilterLoop : List EntityT → Except PyExn (List EntityT)
  | [] => .ok []
  | m :: rest =>
    let t := lowerStr m.text
    match m.preferredText with
    | none => .error (.attributeError (s2l ("lower")))
    | some pt =>
      let p := lowerStr pt
      let c := pyOptStr m.primaryCui
      if medBlacklist.any (· = t) || medBlacklist.any (· = p) then
        medFilterLoop rest
      else if tumorMarkerCuis.any (· = c) then medFilterLoop rest
      else (medFilterLoop rest).map (fun l => m :: l)

/-- `_extract_medications`: the filter loop may raise; on success the names
are deduplicated case-insensitively and joined. -/
def extractMedications (ent : EntitiesT) : Except PyExn (List (Str × Str)) :=
  let meds := ent.medications.filter (fun e => !e.negated)
  match medFilterLoop meds with
  | .error e => .error e
  | .ok filteredMeds =>
    .ok (match filteredMeds with
      | [] => []
      | _ =>
        let medNames := filteredMeds.map (fun m => pyOrStr m.preferredText m.text)
        let medCuis := filteredMeds.filterMap (fun m => truthyOpt m.primaryCui)
        let uniq := dedupLowerGo [] medNames
        optA (s2l ("medication_request_medication"))
            (some (joinSep (s2l ("; ")) uniq)) ++
        optA (s2l ("medication_administration_medication"))
            (some (joinSep (s2l ("; ")) uniq)) ++
        (match medCuis with
         | [] => []
         | _ => optA (s2l ("medication_cuis")) (some (joinSep (s2l ("; ")) medCuis))))

/-- The body-site collection loop of `_extract_procedures` (procedure-major
order, source texts of relations whose target is the procedure). -/
def procBodySitesGo (locRels : List RelT) : List EntityT → List Str
  | [] => []
  | p :: ps =>
    ((locRels.filter (fun r => decide (r.targetId = p.id))).map (·.sourceText))
      ++ procBodySitesGo locRels ps

/-- `_extract_procedures`. -/
def extractProcedures (ent : EntitiesT) (rels : RelationsT) : List (Str × Str) :=
  let procs := ent.procedures.filter (fun e => !e.negated)
  match procs with
  | [] => []
  | _ =>
    let procNames := procs.map (fun p => pyOrStr p.preferredText p.text)
    let procCuis := procs.filterMap (fun p => truthyOpt p.primaryCui)
    let bodySites := procBodySitesGo rels.locationOf procs
    optA (s2l ("cancer_related_procedure_code")) (some (joinSep (s2l ("; ")) procNames)) ++
    (match procCuis with
     | [] => []
     | _ => optA (s2l ("procedure_cuis")) (some (joinSep (s2l ("; ")) procCuis))) ++
    (match bodySites with
     | [] => []
     | _ => optA (s2l ("cancer_related_procedure_body_site"))
         (some (joinSep (s2l ("; ")) (dedupEqGo [] bodySites))))

def specimenTypeMap : List (Str × List Str) :=
  [(s2l ("tissue"), [s2l ("biopsy"), s2l ("mastectomy"), s2l ("excision"),
      s2l ("resection"), s2l ("lumpectomy"), s2l ("surgical removal"),
      s2l ("surgery")]),
   (s2l ("blood"), [s2l ("blood draw"), s2l ("serum"), s2l ("plasma"),
      s2l ("venipuncture")]),
   (s2l ("bone marrow"), [s2l ("bone marrow"), s2l ("marrow aspiration"),
      s2l ("marrow biopsy")]),
   (s2l ("fluid"), [s2l ("fluid aspiration"), s2l ("aspirate"),
      s2l ("pleural tap"), s2l ("ascites"), s2l ("paracentesis")])]

/-- First specimen type whose keyword list hits the procedure text. -/
def procSpecimenType (p : EntityT) : Option Str :=
  (specimenTypeMap.find? (fun tk =>
      tk.2.any (fun kw => containsSub kw (lowerStr p.text)))).map (·.1)

/-- `_extract_specimen_info` (its `relations` parameter is unused in the
source body; the current field table is read for the body-site fallback). -/
def extractSpecimenInfo (ent : EntitiesT) (m : FMap) : List (Str × Str) :=
  let procs := ent.procedures.filter (fun e => !e.negated)
  match procs.findSome? (fun p => (procSpecimenType p).map (fun t => (p, t))) with
  | none => []
  | some (proc, sType) =>
    let site1 : Option Str :=
      (ent.anatomicalSites.find? (fun a =>
          containsSub (lowerStr a.text) (lowerStr proc.text))).map (·.text)
    let site2 : Option Str :=
      if !pyTruthyO site1 then
        match getK m (s2l ("primary_cancer_body_site")) with
        | some v => some v
        | none => site1
      else site1
    optA (s2l ("specimen_type")) (some sType) ++
    optA (s2l ("specimen_collection_site")) (truthyOpt site2)

def markerKeywords : List Str :=
  [s2l ("er"), s2l ("pr"), s2l ("her2"), s2l ("psa"), s2l ("ca-125"),
   s2l ("ca 125"), s2l ("cea")]

/-- `_extract_tumor_markers`. -/
def extractTumorMarkers (ent : EntitiesT) : List (Str × Str) :=
  let markers := (ent.signsSymptoms.filter (fun ss =>
      markerKeywords.any (fun kw => containsSub kw (lowerStr ss.text)))).map
    (fun ss => pyOrStr ss.preferredText ss.text)
  match markers with
  | [] => []
  | _ => optA (s2l ("tumor_marker_test_type")) (some (joinSep (s2l ("; ")) markers))

/-- `_extract_tnm_staging`: Strategy 1 (concatenated), Strategy 2 only when
Strategy 1 found nothing. -/
def extractTnmStaging (docText : Str) : List (Str × Str) :=
  if docText = [] then []
  else
    let best3 : Option Str × Option Str × Option Str :=
      match tnmBest (tnmScan docText) with
      | some (t, n, m) => (some t, some n, some m)
      | none =>
        (selBest 'T' (tIndScan docText), selBest 'N' (nIndScan docText),
         selBest 'M' (mIndScan docText))
    optA (s2l ("staging_t_category")) (truthyOpt best3.1) ++
    optA (s2l ("staging_n_category")) (truthyOpt best3.2.1) ++
    optA (s2l ("staging_m_category")) (truthyOpt best3.2.2)

def tumorKeywords : List Str :=
  [s2l ("tumor"), s2l ("tumour"), s2l ("mass"), s2l ("lesion"),
   s2l ("neoplasm"), s2l ("carcinoma"), s2l ("cancer")]

def nodeKeywords : List Str :=
  [s2l ("node"), s2l ("nodal"), s2l ("lymph"), s2l ("lymphadenopathy"),
   s2l ("adenopathy")]

/-- The classification loop of `_extract_tumor_dimensions`: (primary bucket,
node bucket), entries `(value in cm, matched text)`.  A match whose window
lacks tumor context joins neither bucket. -/
def dimBuckets (docText : Str) : List DimMatch → List (DecNum × Str) × List (DecNum × Str)
  | [] => ([], [])
  | dm :: rest =>
    let r := dimBuckets docText rest
    let ctx := lowerStr (sliceStr docText (dm.startPos - 50)
      (min docText.length (dm.stopPos + 50)))
    let hasTumor := tumorKeywords.any (fun kw => containsSub kw ctx)
    let hasNode := nodeKeywords.any (fun kw => containsSub kw ctx)
    if hasTumor then
      let v0 := decVal dm.numIntDs dm.numFracDs
      let v := if containsSub (s2l ("mm")) dm.unitLower ||
                  containsSub (s2l ("millimeter")) dm.unitLower then decDiv10 v0 else v0
      let entry := (v, sliceStr docText dm.startPos dm.stopPos)
      if hasNode then (r.1, entry :: r.2) else (entry :: r.1, r.2)
    else r

/-- `_extract_tumor_dimensions`. -/
def extractTumorDimensions (docText : Str) : List (Str × Str) :=
  if docText = [] then []
  else
    let buckets := dimBuckets docText (dimScan docText)
    match buckets.1 with
    | p :: ps => [(s2l ("tumor_longest_dimension"), (pyMaxByFst p ps).2)]
    | [] =>
      match buckets.2 with
      | n :: ns => [(s2l ("tumor_longest_dimension"), (pyMaxByFst n ns).2)]
      | [] => []

/-- `float(...)` on a matched number text `digits[.digits]`. -/
def parseFloatTxt (s : Str) : DecNum :=
  let intDs := s.takeWhile isDigitCh
  match s.drop intDs.length with
  | '.' :: fr => decVal intDs (fr.takeWhile isDigitCh)
  | _ => decVal intDs []

def skipTerms : List Str :=
  [s2l ("therapy"), s2l ("treatment"), s2l ("course"), s2l ("plan"),
   s2l ("technique"), s2l ("daily"), s2l ("definitive"), s2l ("oncology"),
   s2l ("consultation"), s2l ("recommended"), s2l ("prior"), s2l ("no"),
   s2l ("thermoplastic"), s2l ("head and neck")]

/-- The cleaning loop over the radiotherapy body-site candidates (`seen` is
only updated for fully accepted sites, as in the source). -/
def cleanSitesGo (seen : List Str) : List Str → List Str
  | [] => []
  | site :: rest =>
    let sc := lowerStr (pyStrip site)
    if !(seen.any (· = sc)) && sc.length > 2 then
      if !(skipTerms.any (fun t => containsSub t sc)) then
        pyStrip site :: cleanSitesGo (sc :: seen) rest
      else cleanSitesGo seen rest
    else cleanSitesGo seen rest

/-- `_extract_radiotherapy_info`. -/
def extractRadiotherapyInfo (docText : Str) : List (Str × Str) :=
  if docText = [] then []
  else
    let doseAsg : Option Str :=
      match doseScan docText with
      | [] => none
      | dm :: dms =>
        let f : Str × Str → DecNum × Str :=
          fun p => (parseFloatTxt p.1, p.1 ++ (' ' :: p.2))
        some (pyMaxByFst (f dm) (dms.map f)).2
    let fracAsg : Option Str := (fracScan docText).head?
    let modAsg : Option Str :=
      match modScan docText with
      | [] => none
      | mm :: mms => some (joinSep (s2l ("; ")) (dedupUpperGo [] (mm :: mms)))
    let rtSites := toScan docText ++ wholeScan docText ++ siteFirstScan docText
    let siteAsg : Option Str :=
      match rtSites with
      | [] => none
      | _ =>
        match cleanSitesGo [] rtSites with
        | [] => none
        | cs0 :: csRest => some (joinSep (s2l ("; ")) (cs0 :: csRest))
    optA (s2l ("radiotherapy_total_dose")) doseAsg ++
    optA (s2l ("radiotherapy_number_of_fractions")) fracAsg ++
    optA (s2l ("radiotherapy_modality")) modAsg ++
    optA (s2l ("radiotherapy_body_site")) siteAsg

def negSuffix : Str := s2l (" (negated)")

def typedNegTexts (l : List EntityT) : List Str :=
  (l.filter (·.negated)).map (fun e => e.text ++ negSuffix)

/-- Raw-category scan: `e['text']` raises `KeyError` when the key is absent. -/
def rawNegTexts : List RawEntity → Except PyExn (List Str)
  | [] => .ok []
  | e :: rest =>
    if e.negated then
      match e.text with
      | some t => (rawNegTexts rest).map (fun l => (t ++ negSuffix) :: l)
      | none => .error (.keyError (s2l ("text")))
    else rawNegTexts rest

def rawNegAll : List (Str × List RawEntity) → Except PyExn (List Str)
  | [] => .ok []
  | (_, l) :: rest =>
    match rawNegTexts l with
    | .error e => .error e
    | .ok ts =>
      match rawNegAll rest with
      | .error e => .error e
      | .ok ts' => .ok (ts ++ ts')

/-- `_extract_negated_findings`: every entity category (the five adapter
categories in dict insertion order, then any extra categories). -/
def extractNegatedFindings (ent : EntitiesT) : Except PyExn (List (Str × Str)) :=
  let typed := typedNegTexts ent.diseases ++ typedNegTexts ent.medications ++
    typedNegTexts ent.procedures ++ typedNegTexts ent.anatomicalSites ++
    typedNegTexts ent.signsSymptoms
  match rawNegAll ent.extras with
  | .error e => .error e
  | .ok raws =>
    let negs := typed ++ raws
    .ok (match negs with
      | [] => []
      | _ => [(s2l ("negated_findings"), joinSep (s2l ("; ")) negs)])

/-! ### Diagnosis date (Tier 1 and the LLM disambiguator) -/

def diagnosticKeywords : List Str :=
  [s2l ("confirmed"), s2l ("diagnosed"), s2l ("diagnosis"), s2l ("biopsy"),
   s2l ("pathology"), s2l ("detected"), s2l ("identified"), s2l ("laryngoscopy"),
   s2l ("endoscopy"), s2l ("imaging"), s2l ("scan"), s2l ("mammography"),
   s2l ("colonoscopy")]

def relativeKeywords : List Str :=
  [s2l ("today"), s2l ("yesterday"), s2l ("tomorrow"), s2l ("week"),
   s2l ("month"), s2l ("year"), s2l ("day"), s2l ("ago"), s2l ("last"),
   s2l ("next"), s2l ("recent"), s2l ("prior"), s2l ("previous"),
   s2l ("current"), s2l ("now"), s2l ("past")]

/-- `_is_absolute_date`: no relative keyword in the lowered/stripped text,
and a word-bounded year 2000–2099 in the original text. -/
def isAbsoluteDate (dateText : Str) : Bool :=
  let dl := lowerStr (pyStrip dateText)
  if relativeKeywords.any (fun kw => containsSub kw dl) then false
  else hasYear20 dateText

/-- Python dict comprehension `{x['id']: x for x in l}` plus lookup: the
last list element with the key wins. -/
def dictLast (key : α → Str) (l : List α) (k : Str) : Option α :=
  l.reverse.find? (fun x => decide (key x = k))

/-- Orientation resolution of a temporal relation: source-as-time-mention
first, then target-as-time-mention. -/
def resolveTimeEvent (tms : List TimeM) (evs : List EventT) (r : TRelT) :
    Option (TimeM × EventT) :=
  match dictLast TimeM.id tms r.sourceId, dictLast EventT.id evs r.targetId with
  | some tm, some ev => some (tm, ev)
  | _, _ =>
    match dictLast TimeM.id tms r.targetId, dictLast EventT.id evs r.sourceId with
    | some tm, some ev => some (tm, ev)
    | _, _ => none

/-- `_find_date_via_temporal_relations` (the Tier-1 loop). -/
def findDateViaTemporalRelations (tms : List TimeM) (evs : List EventT) :
    List TRelT → Option TimeM
  | [] => none
  | r :: rest =>
    match resolveTimeEvent tms evs r with
    | some (tm, ev) =>
      if diagnosticKeywords.any (fun kw => containsSub kw (lowerStr ev.text)) &&
          isAbsoluteDate tm.text then some tm
      else findDateViaTemporalRelations tms evs rest
    | none => findDateViaTemporalRelations tms evs rest

/-- `DateDisambiguator._extract_context`. -/
def extractContext (sentenceWindow : Nat) (d : TimeM)
    (sentences : List SentenceT) : Str :=
  match sentences.findIdx? (fun s =>
      decide (s.beginPos ≤ d.beginPos) && decide (d.beginPos < s.endPos)) with
  | none => d.text
  | some idx =>
    let start := idx - sentenceWindow
    let stop := min sentences.length (idx + sentenceWindow + 1)
    joinSep [' '] (((sentences.drop start).take (stop - start)).map (·.text))

def buildClassificationPrompt (dateText ctx : Str) : Str :=
  s2l ("You are a clinical date classifier. Analyze if the date is when the primary cancer was diagnosed.\n\nClinical text:\n\"")
  ++ ctx
  ++ s2l ("\"\n\nQuestion: Is \"")
  ++ dateText
  ++ s2l ("\" when the cancer was first diagnosed/confirmed?\n\nAnswer YES if:\n- The text says diagnostic/biopsy/procedure confirmed cancer on or around this date\n- The date is linked to initial diagnosis, pathology result, or cancer detection\n- Keywords: \"diagnosed\", \"confirmed\", \"detected\", \"identified\", \"biopsy\"\n\nAnswer NO if:\n- This is a staging scan, treatment start, surgery, or follow-up visit date\n- This is family/past medical history (not this patient's cancer)\n- Date is for imaging, labs, or tests unrelated to initial diagnosis\n\nAnswer with ONE word only: YES or NO\n\nAnswer:")

def buildDateBlock (number : Nat) (dateText ctx : Str) : Str :=
  s2l ("Date ") ++ s2l (toString number) ++ s2l (": ") ++ dateText ++
  s2l ("\nContext: \"") ++ ctx ++ s2l ("\"\n")

def buildRankingPrompt (blocks : List Str) : Str :=
  s2l ("You are a clinical date classifier. Multiple dates are mentioned in a clinical note. Identify which one is the PRIMARY CANCER DIAGNOSIS date.\n\n")
  ++ joinSep ['\n'] blocks
  ++ s2l ("\n\nQuestion: Which date (if any) represents the PRIMARY CANCER DIAGNOSIS (initial diagnosis, biopsy confirmation)?\n\nInstructions:\n- Respond with ONLY the number (1, 2, 3, etc.) of the diagnosis date\n- If none are diagnosis dates, respond with \"NONE\"\n- Do NOT provide explanations or other text\n\nAnswer:")

/-- `_is_diagnosis_date`: strict YES classification; a service exception is
caught and yields `False`. -/
def isDiagnosisDate (orc : Ollama) (dateText ctx : Str) : Bool :=
  match orc (buildClassificationPrompt dateText ctx) with
  | .error _ => false
  | .ok resp => isPre (s2l ("YES")) (upperStr (pyStrip (stripThinking resp)))

/-- `_rank_dates`: implemented in the source but never invoked by
`disambiguate_date`.  Parses the response for the first standalone integer,
used as a 1-based index; out of range or absent means no result; a service
exception is caught and yields no result. -/
def rankDates (orc : Ollama) (sentenceWindow : Nat) (dateMentions : List TimeM)
    (sentences : List SentenceT) : Option Str :=
  let blocks := ((List.range dateMentions.length).zip dateMentions).map
    (fun p => buildDateBlock (p.1 + 1) p.2.text
      (extractContext sentenceWindow p.2 sentences))
  match orc (buildRankingPrompt blocks) with
  | .error _ => none
  | .ok resp =>
    match firstInt (pyStrip (stripThinking resp)) with
    | some ds =>
      let n := digitsVal ds
      if 1 ≤ n && n ≤ dateMentions.length then
        (dateMentions[n - 1]?).map (·.text)
      else none
    | none => none

/-- `disambiguate_date`.  With more than one DATE mention the source falls
off the end of the function (the multi-date branch is only the comment
`# Multiple dates: ask LLM to rank them`; `_rank_dates` is never called),
so `None` is returned. -/
def disambiguateDate (orc : Ollama) (sentenceWindow : Nat) (tms : List TimeM)
    (sentences : List SentenceT) : Option Str :=
  let dateMentions := tms.filter (fun tm =>
    decide (upperStr tm.timeClass = s2l ("DATE")))
  match dateMentions with
  | [] => none
  | [d] =>
    if isDiagnosisDate orc d.text (extractContext sentenceWindow d sentences) then
      some d.text
    else none
  | _ => none

/-- The `active_diseases` filter of `_extract_primary_cancer_date`: negation,
subject and historicity only — unlike `_extract_tumor_info`'s filter, the
family-history-context heuristic is not applied here. -/
def dateActiveDiseases (ent : EntitiesT) : List EntityT :=
  ent.diseases.filter (fun d =>
    !d.negated && decide (d.subject = s2l ("patient")) && decide (d.historyOf = 0))

/-- `_extract_primary_cancer_date`: preconditions, Tier 1, then the guarded
optional Tier 2. -/
def extractPrimaryCancerDate (cfg : ConfigT) (orc : Ollama) (temporal : TemporalT)
    (sentences : List SentenceT) (ent : EntitiesT) : List (Str × Str) :=
  if temporal.timeMentions = [] ∨ dateActiveDiseases ent = [] then []
  else
    match findDateViaTemporalRelations temporal.timeMentions temporal.events
        temporal.temporalRelations with
    | some tm => [(s2l ("primary_cancer_asserted_date"), tm.text)]
    | none =>
      if cfg.llmEnable then
        match disambiguateDate orc cfg.sentenceWindow temporal.timeMentions sentences with
        | some d => if d = [] then [] else [(s2l ("primary_cancer_asserted_date"), d)]
        | none => []
      else []

/-! ## Pipeline and table assembly -/

/-- `populate_from_ctakes`: the extractor calls in source order with no
handler around any of them; only the Tier-2 LLM call inside the date
extractor is guarded.  An `AttributeError` raised in the medication loop
(second call) or a `KeyError` raised in the negated-findings scan (ninth
call) aborts the remaining sequence. -/
def populateFromCtakes (cfg : ConfigT) (orc : Ollama) (ent : EntitiesT)
    (rels : RelationsT) (temporal : TemporalT) (sentences : List SentenceT)
    (docText : Str) : Except PyExn FMap :=
  let m1 := applyAsgs [] (extractTumorInfo ent rels docText)
  match extractMedications ent with
  | .error e => .error e
  | .ok asg2 =>
    let m2 := applyAsgs m1 asg2
    let m3 := applyAsgs m2 (extractProcedures ent rels)
    let m4 := applyAsgs m3 (extractSpecimenInfo ent m3)
    let m5 := applyAsgs m4 (extractTumorMarkers ent)
    let m6 := applyAsgs m5 (extractTnmStaging docText)
    let m7 := applyAsgs m6 (extractTumorDimensions docText)
    let m8 := applyAsgs m7 (extractRadiotherapyInfo docText)
    match extractNegatedFindings ent with
    | .error e => .error e
    | .ok asg9 =>
      .ok (applyAsgs (applyAsgs m8 asg9)
        (extractPrimaryCancerDate cfg orc temporal sentences ent))

/-- The `all_fields` schema of `generate_csv`, in source order. -/
def allFields : List Str :=
  [s2l ("source_file"), s2l ("patient_name"), s2l ("birth_date"), s2l ("gender"),
   s2l ("specimen_collection_site"), s2l ("specimen_type"),
   s2l ("tumor_body_location"), s2l ("tumor_longest_dimension"),
   s2l ("primary_cancer_body_site"), s2l ("primary_cancer_histology_morphology"),
   s2l ("staging_t_category"), s2l ("staging_n_category"), s2l ("staging_m_category"),
   s2l ("primary_cancer_asserted_date"), s2l ("tumor_marker_test_type"),
   s2l ("tumor_marker_result_value"), s2l ("medication_request_medication"),
   s2l ("medication_administration_medication"), s2l ("cancer_related_procedure_code"),
   s2l ("cancer_related_procedure_body_site"), s2l ("radiotherapy_total_dose"),
   s2l ("radiotherapy_number_of_fractions"), s2l ("radiotherapy_modality"),
   s2l ("radiotherapy_body_site"), s2l ("procedure_cuis"), s2l ("negated_findings"),
   s2l ("primary_cancer_cui"), s2l ("medication_cuis")]

def cuiFields : List Str :=
  [s2l ("primary_cancer_cui"), s2l ("medication_cuis"), s2l ("procedure_cuis")]

/-- `generate_csv` at the row level (the file writing itself is out of
scope): the always-produced stripped rows, and the coded (`_with_cuis`)
rows exactly when configured. -/
def generateCsv (cfg : ConfigT) (m : FMap) (sourceFile : Option Str) :
    List (Str × Str) × Option (List (Str × Str)) :=
  let srcRow : Str × Str := (s2l ("source_file"), pyOptStr sourceFile)
  let codedRows := srcRow :: allFields.tail.map (fun f => (f, pyOptStr (getK m f)))
  let strippedRows := srcRow ::
    (allFields.tail.filter (fun f => !cuiFields.any (· = f))).map
      (fun f => (f, pyOptStr (getK m f)))
  (strippedRows, if cfg.includeCuisFile then some codedRows else none)

/-! ## Claim-side definitions and concrete inputs -/

/-- Tier-1 qualification of one temporal relation, as the specification
words it: resolve the time-mention/event orientation (both argument orders),
require a diagnostic-action keyword in the event text and an absolute date
in the time-mention text. -/
def tier1Qualifies (tms : List TimeM) (evs : List EventT) (r : TRelT) :
    Option TimeM :=
  match resolveTimeEvent tms evs r with
  | some (tm, ev) =>
    if diagnosticKeywords.any (fun kw => containsSub kw (lowerStr ev.text)) &&
        isAbsoluteDate tm.text then some tm
    else none
  | none => none

/-- Modelled from the claim's wording (C4): the `"; "`-join of the
deduplicated LOCATION_OF relation **target** texts collected from relations
whose target is the procedure.  The source collects the **source** texts
instead; this definition exists only to be compared with the embedding. -/
def procBodySiteClaimed (ent : EntitiesT) (rels : RelationsT) : Option Str :=
  let procs := ent.procedures.filter (fun e => !e.negated)
  let sites := procs.flatMap (fun p =>
    (rels.locationOf.filter (fun r => decide (r.targetId = p.id))).map (·.targetText))
  match sites with
  | [] => none
  | _ => some (joinSep (s2l ("; ")) (dedupEqGo [] sites))

def entsEmpty : EntitiesT := ⟨[], [], [], [], [], []⟩

def relsEmpty : RelationsT := ⟨[], []⟩

def temporalEmpty : TemporalT := ⟨[], [], []⟩

def c1TmA : TimeM := ⟨s2l ("t1"), 0, 10, s2l ("01/02/2025"), s2l ("DATE")⟩

def c1TmB : TimeM := ⟨s2l ("t2"), 20, 30, s2l ("03/04/2026"), s2l ("DATE")⟩

/-- An LLM oracle that always answers `2` (selecting the second date). -/
def c1Oracle : Ollama := fun _ => .ok (s2l ("2"))

def c1Config : ConfigT := ⟨false, true, 1, false⟩

def c1Disease : EntityT :=
  ⟨s2l ("d1"), s2l ("lung cancer"), 0, false, s2l ("patient"), 0, none, none⟩

def c1Entities : EntitiesT := ⟨[c1Disease], [], [], [], [], []⟩

def c1Temporal : TemporalT := ⟨[c1TmA, c1TmB], [], []⟩

def c3Entities : EntitiesT := ⟨[], [], [], [], [], [(s2l ("other"), [⟨true, none⟩])]⟩

def c3Config : ConfigT := ⟨false, false, 1, false⟩

def errOracle : Ollama := fun _ => .error ()

def c3wMed : EntityT :=
  ⟨s2l ("m1"), s2l ("aspirin"), 0, true, s2l ("patient"), 0, none, none⟩

def c3wEntities : EntitiesT :=
  ⟨[], [c3wMed], [], [], [], [(s2l ("labs"), [⟨true, none⟩])]⟩

/-- A non-negated medication without a coded concept: its
`preferred_text` is the stored `None` on which `.lower()` raises. -/
def c3w2Med : EntityT :=
  ⟨s2l ("m2"), s2l ("tamoxifen"), 0, false, s2l ("patient"), 0, none, none⟩

def c3w2Entities : EntitiesT := ⟨[], [c3w2Med], [], [], [], []⟩

def c4Proc : EntityT :=
  ⟨s2l ("p1"), s2l ("biopsy"), 5, false, s2l ("patient"), 0, none, none⟩

def c4Entities : EntitiesT := ⟨[], [], [c4Proc], [], [], []⟩

def c4Relations : RelationsT :=
  ⟨[⟨s2l ("a1"), s2l ("p1"), s2l ("breast"), s2l ("biopsy")⟩], []⟩

def c5MatchC : TnmMatch := ⟨[ 'c' ], '2', none, none, '0', none, '0', none⟩

def c5MatchP : TnmMatch := ⟨[ 'p' ], '3', none, none, '1', none, '1', none⟩

def c5TextA : Str := s2l ("Staging cT2N0M0 was revised to pT3N1M1.")

def c6Doc : Str := s2l ("maternal aunt with ovarian cancer diagnosed 03/15/2026")

def c6Disease : EntityT :=
  ⟨s2l ("d1"), s2l ("ovarian cancer"), 19, false, s2l ("patient"), 0, none, none⟩

def c6Entities : EntitiesT := ⟨[c6Disease], [], [], [], [], []⟩

def c6Tm : TimeM := ⟨s2l ("t1"), 44, 54, s2l ("03/15/2026"), s2l ("DATE")⟩

def c6Ev : EventT := ⟨s2l ("e1"), s2l ("diagnosed")⟩

def c6Temporal : TemporalT :=
  ⟨[c6Tm], [c6Ev], [⟨s2l ("t1"), s2l ("e1"), s2l ("CONTAINS")⟩]⟩

def c6Config : ConfigT := ⟨false, false, 1, false⟩

def c6wDisease : EntityT :=
  ⟨s2l ("d2"), s2l ("lung cancer"), 0, false, s2l ("patient"), 0, none, none⟩

def c6wEntities : EntitiesT := ⟨[c6wDisease], [], [], [], [], []⟩

def c6wTm : TimeM := ⟨s2l ("t9"), 0, 10, s2l ("05/06/2027"), s2l ("DATE")⟩

def c6wTemporal : TemporalT :=
  ⟨[c6wTm], [⟨s2l ("e9"), s2l ("biopsy")⟩],
   [⟨s2l ("e9"), s2l ("t9"), s2l ("CONTAINS")⟩]⟩

def c7Doc : Str :=
  s2l ("Patient has invasive ductal adenocarcinoma and also breast cancer noted.")

def c7Disease1 : EntityT :=
  ⟨s2l ("d1"), s2l ("invasive ductal adenocarcinoma"), 12, false,
   s2l ("patient"), 0, some (s2l ("Invasive ductal carcinoma")), none⟩

def c7Disease2 : EntityT :=
  ⟨s2l ("d2"), s2l ("breast cancer"), 52, false, s2l ("patient"), 0, none, none⟩

def c7Entities : EntitiesT := ⟨[c7Disease1, c7Disease2], [], [], [], [], []⟩

def c8Doc : Str := s2l ("family history of sister with breast cancer noted")

def c8Ent : EntityT :=
  ⟨s2l ("d1"), s2l ("breast cancer"), 30, true, s2l ("patient"), 0, none, none⟩

def c8Entities : EntitiesT := ⟨[c8Ent], [], [], [], [], []⟩

def c9Config : ConfigT := ⟨true, false, 1, false⟩

def c9Map : FMap :=
  [(s2l ("primary_cancer_cui"), s2l ("C0012345")),
   (s2l ("specimen_type"), s2l ("tissue"))]

def c10Config : ConfigT := ⟨true, false, 1, false⟩

/-- The four schema fields no extractor ever assigns. -/
def neverWrittenFields : List Str :=
  [s2l ("patient_name"), s2l ("birth_date"), s2l ("gender"),
   s2l ("tumor_marker_result_value")]

/-- All field-table keys some extractor can assign. -/
def writableKeys : List Str :=
  [s2l ("primary_cancer_histology_morphology"), s2l ("primary_cancer_cui"),
   s2l ("primary_cancer_body_site"), s2l ("tumor_body_location"),
   s2l ("medication_request_medication"),
   s2l ("medication_administration_medication"), s2l ("medication_cuis"),
   s2l ("cancer_related_procedure_code"), s2l ("procedure_cuis"),
   s2l ("cancer_related_procedure_body_site"), s2l ("specimen_type"),
   s2l ("specimen_collection_site"), s2l ("tumor_marker_test_type"),
   s2l ("staging_t_category"), s2l ("staging_n_category"),
   s2l ("staging_m_category"), s2l ("tumor_longest_dimension"),
   s2l ("radiotherapy_total_dose"), s2l ("radiotherapy_number_of_fractions"),
   s2l ("radiotherapy_modality"), s2l ("radiotherapy_body_site"),
   s2l ("negated_findings"), s2l ("primary_cancer_asserted_date")]

/-! ## Claim theorems -/

/-- C1: with Tier 1 empty-handed, LLM disambiguation enabled and two DATE
mentions, the code returns no date at all: `disambiguate_date` never reaches
`_rank_dates` (its multi-date branch is only a comment), although
`_rank_dates` itself would have selected the indexed mention, as the claim
describes.  The oracle answers `2`, so the claimed behavior would return the
second date's text. -/
theorem c1_multi_date_no_ranking :
    disambiguateDate c1Oracle 1 [c1TmA, c1TmB] [] = none ∧
    extractPrimaryCancerDate c1Config c1Oracle c1Temporal [] c1Entities = [] ∧
    rankDates c1Oracle 1 [c1TmA, c1TmB] [] = some (s2l ("03/04/2026")) :=
  ⟨rfl, rfl, rfl⟩

/-- C2: the text `"2 cm lymph node"` alone yields no
`tumor_longest_dimension` at all — the match is discarded for lacking tumor
context rather than kept in the node-context fallback bucket; with a
`"3 cm mass"` also present, the output is `"3 cm"`. -/
theorem c2_node_only_dropped :
    extractTumorDimensions (s2l ("2 cm lymph node")) = [] ∧
    extractTumorDimensions (s2l ("3 cm mass and a 2 cm lymph node")) =
      [(s2l ("tumor_longest_dimension"), s2l ("3 cm"))] :=
  ⟨rfl, by decide⟩

/-- C3 counterexample: an input on which a field extractor
(`_extract_negated_findings`, hitting `e['text']` on an entity without the
key) raises, and the exception propagates out of `populate_from_ctakes`,
aborting the whole document's extraction — no field table is produced. -/
theorem c3_counterexample :
    populateFromCtakes c3Config errOracle c3Entities relsEmpty temporalEmpty [] [] =
      .error (.keyError (s2l ("text"))) :=
  rfl

/-- C4 counterexample: with one procedure `biopsy` and one LOCATION_OF
relation (source text `breast`, target the procedure), the extractor sets
the body-site field to the relation's **source** text `breast`, while the
claim's wording (join of relation **targets**) would give `biopsy`. -/
theorem c4_counterexample :
    getK (extractProcedures c4Entities c4Relations)
        (s2l ("cancer_related_procedure_body_site")) = some (s2l ("breast")) ∧
    procBodySiteClaimed c4Entities c4Relations = some (s2l ("biopsy")) ∧
    s2l ("breast") ≠ s2l ("biopsy") :=
  ⟨rfl, rfl, by decide⟩

/-- C6 counterexample: the only disease mention sits in family-history
context (`maternal` within the 50 characters before it), so the
active-patient filter of §4.1 — the one `_extract_tumor_info` applies —
leaves no active-patient disease; yet the date extractor, which skips the
family-history test in its precondition, still sets
`primary_cancer_asserted_date` through Tier 1. -/
theorem c6_counterexample :
    filteredDiseases c6Doc c6Entities = [] ∧
    extractPrimaryCancerDate c6Config errOracle c6Temporal [] c6Entities =
      [(s2l ("primary_cancer_asserted_date"), s2l ("03/15/2026"))] :=
  ⟨rfl, rfl⟩

/-! ### Shared helper lemmas -/

theorem getK_nil (k : Str) : getK [] k = none := rfl

theorem getK_cons_ne (k' : Str) (v' : Str) (m : FMap) (k : Str) (h : k' ≠ k) :
    getK ((k', v') :: m) k = getK m k := by
  simp only [getK]
  rw [List.find?_cons_of_neg]
  simp [h]

theorem getK_cons_eq (k : Str) (v : Str) (m : FMap) :
    getK ((k, v) :: m) k = some v := by
  simp only [getK]
  rw [List.find?_cons_of_pos] <;> simp

theorem procBodySitesGo_eq_flatMap (locRels : List RelT) (ps : List EntityT) :
    procBodySitesGo locRels ps =
      ps.flatMap (fun p =>
        (locRels.filter (fun r => decide (r.targetId = p.id))).map
          (fun r => r.sourceText)) := by
  induction ps with
  | nil => rfl
  | cons p ps ih => simp [procBodySitesGo, ih]

/-- C3 amended: an exception raised inside a field extractor propagates out
of `populate_from_ctakes` in pipeline order and aborts the document's
extraction; the later extractors do not run and no field table is produced
(only the Tier-2 LLM call inside the date extractor is guarded).  The two
raising extractors: `_extract_medications` (`AttributeError` on the first
non-negated medication without a coded concept, second pipeline call) and —
when the medication loop completed — `_extract_negated_findings`
(`KeyError` on a negated extra-category entity without a `text` key, ninth
pipeline call). -/
theorem c3_amended (cfg : ConfigT) (orc : Ollama) (ent : EntitiesT)
    (rels : RelationsT) (temporal : TemporalT) (sentences : List SentenceT)
    (docText : Str) :
    (∀ e, extractMedications ent = .error e →
      populateFromCtakes cfg orc ent rels temporal sentences docText = .error e) ∧
    (∀ asg2 e, extractMedications ent = .ok asg2 →
      extractNegatedFindings ent = .error e →
      populateFromCtakes cfg orc ent rels temporal sentences docText = .error e) := by
  constructor
  · intro e h
    simp only [populateFromCtakes, h]
  · intro asg2 e h1 h2
    simp only [populateFromCtakes, h1, h2]

theorem c3_amended_witness :
    populateFromCtakes c3Config errOracle c3w2Entities relsEmpty temporalEmpty []
      [] = .error (.attributeError (s2l ("lower"))) ∧
    populateFromCtakes c3Config errOracle c3wEntities relsEmpty temporalEmpty []
      (s2l ("abc")) = .error (.keyError (s2l ("text"))) :=
  ⟨(c3_amended c3Config errOracle c3w2Entities relsEmpty temporalEmpty [] []).1
      (.attributeError (s2l ("lower"))) rfl,
   (c3_amended c3Config errOracle c3wEntities relsEmpty temporalEmpty []
      (s2l ("abc"))).2 [] (.keyError (s2l ("text"))) rfl rfl⟩

/-- C4 amended: `cancer_related_procedure_body_site` is the `"; "`-join of
the deduplicated LOCATION_OF relation **source** texts, collected
procedure-major over exactly those relations whose target is the (non-
negated) procedure, and the field is absent when no such relation exists. -/
theorem c4_amended (ent : EntitiesT) (rels : RelationsT) :
    getK (extractProcedures ent rels) (s2l ("cancer_related_procedure_body_site")) =
      (match (ent.procedures.filter (fun e => !e.negated)).flatMap (fun p =>
          (rels.locationOf.filter (fun r => decide (r.targetId = p.id))).map
            (fun r => r.sourceText)) with
       | [] => none
       | s :: ss => some (joinSep (s2l ("; ")) (dedupEqGo [] (s :: ss)))) := by
  rw [← procBodySitesGo_eq_flatMap]
  simp only [extractProcedures]
  cases hp : ent.procedures.filter (fun e => !e.negated) with
  | nil => simp [procBodySitesGo, getK]
  | cons p ps =>
    simp only []
    cases hcuis : (p :: ps).filterMap (fun q => truthyOpt q.primaryCui) with
    | nil =>
      cases hbs : procBodySitesGo rels.locationOf (p :: ps) with
      | nil =>
        simp only [optA, List.append_nil, List.nil_append, List.singleton_append]
        rw [getK_cons_ne _ _ _ _ (by decide), getK_nil]
      | cons s ss =>
        simp only [optA, List.nil_append, List.singleton_append]
        rw [getK_cons_ne _ _ _ _ (by decide), getK_cons_eq]
    | cons c cs =>
      cases hbs : procBodySitesGo rels.locationOf (p :: ps) with
      | nil =>
        simp only [optA, List.append_nil, List.nil_append, List.singleton_append,
          List.cons_append]
        rw [getK_cons_ne _ _ _ _ (by decide), getK_cons_ne _ _ _ _ (by decide),
          getK_nil]
      | cons s ss =>
        simp only [optA, List.singleton_append, List.cons_append, List.nil_append]
        rw [getK_cons_ne _ _ _ _ (by decide), getK_cons_ne _ _ _ _ (by decide),
          getK_cons_eq]

/-- C5: on any document text whose concatenated-TNM matches are exactly the
parses of `cT2N0M0` and `pT3N1M1` — in either order of appearance — the
extractor outputs `pT3`, `pN1`, `pM1`: the match with the highest prefix
priority (p=5 > y=4 > c=3 > r=2 > m=1 > none=0) wins independent of
document position. -/
theorem c5_tnm_priority (docText : Str)
    (h : tnmScan docText = [c5MatchC, c5MatchP] ∨
         tnmScan docText = [c5MatchP, c5MatchC]) :
    extractTnmStaging docText =
      [(s2l ("staging_t_category"), s2l ("pT3")),
       (s2l ("staging_n_category"), s2l ("pN1")),
       (s2l ("staging_m_category"), s2l ("pM1"))] := by
  have hne : ¬docText = [] := by
    rcases h with h | h <;> (intro he; rw [he] at h; exact absurd h (by decide))
  rcases h with h | h <;>
    (simp only [extractTnmStaging, if_neg hne, h]; rfl)

theorem c5_witness :
    tnmScan c5TextA = [c5MatchC, c5MatchP] ∧
    extractTnmStaging c5TextA =
      [(s2l ("staging_t_category"), s2l ("pT3")),
       (s2l ("staging_n_category"), s2l ("pN1")),
       (s2l ("staging_m_category"), s2l ("pM1"))] :=
  ⟨by decide, c5_tnm_priority c5TextA (Or.inl (by decide))⟩

theorem findDate_eq_findSome (tms : List TimeM) (evs : List EventT)
    (rels : List TRelT) :
    findDateViaTemporalRelations tms evs rels =
      rels.findSome? (tier1Qualifies tms evs) := by
  induction rels with
  | nil => rfl
  | cons r rest ih =>
    simp only [findDateViaTemporalRelations, List.findSome?_cons, tier1Qualifies]
    cases hres : resolveTimeEvent tms evs r with
    | none => simpa using ih
    | some p =>
      obtain ⟨tm, ev⟩ := p
      by_cases hq : (diagnosticKeywords.any
          (fun kw => containsSub kw (lowerStr ev.text)) &&
          isAbsoluteDate tm.text) = true
      · simp [hq]
      · simp only [Bool.not_eq_true] at hq
        simp [hq, ih]

/-- C6 amended: `primary_cancer_asserted_date` is left unset when there is
no time mention or no non-negated, subject-patient, non-historical disease
(the date extractor does not apply the family-history-context part of the
active-patient filter); and when the first temporal relation — in adapter
order, both argument orders checked — links a diagnostic-keyword event to
an absolute-date time mention, Tier 1 sets the field to that mention's
text. -/
theorem c6_amended (cfg : ConfigT) (orc : Ollama) (temporal : TemporalT)
    (sentences : List SentenceT) (ent : EntitiesT) :
    ((temporal.timeMentions = [] ∨ dateActiveDiseases ent = []) →
      extractPrimaryCancerDate cfg orc temporal sentences ent = []) ∧
    (∀ tm, temporal.timeMentions ≠ [] → dateActiveDiseases ent ≠ [] →
      temporal.temporalRelations.findSome?
        (tier1Qualifies temporal.timeMentions temporal.events) = some tm →
      extractPrimaryCancerDate cfg orc temporal sentences ent =
        [(s2l ("primary_cancer_asserted_date"), tm.text)]) := by
  constructor
  · intro h
    simp only [extractPrimaryCancerDate, if_pos h]
  · intro tm h1 h2 h3
    have hcond : ¬(temporal.timeMentions = [] ∨ dateActiveDiseases ent = []) := by
      rintro (h | h) <;> contradiction
    simp only [extractPrimaryCancerDate, if_neg hcond, findDate_eq_findSome, h3]

theorem c6_amended_witness :
    extractPrimaryCancerDate c6Config errOracle c6wTemporal [] c6wEntities =
      [(s2l ("primary_cancer_asserted_date"), s2l ("05/06/2027"))] :=
  (c6_amended c6Config errOracle c6wTemporal [] c6wEntities).2 c6wTm
    (by decide) (by decide) (by decide)

theorem keyGT_irrefl (a : ℚ × ℕ × ℤ) : keyGT a a = false := by
  simp [keyGT]

theorem keyGT_asymm (a b : ℚ × ℕ × ℤ) (h : keyGT a b = true) :
    keyGT b a = false := by
  simp only [keyGT, decide_eq_true_eq] at h
  simp only [keyGT, decide_eq_false_iff_not]
  rintro (hc1 | ⟨hc1, hc2 | ⟨hc2, hc3⟩⟩) <;>
    rcases h with h1 | ⟨h1, h2 | ⟨h2, h3⟩⟩ <;>
    first
      | omega
      | linarith

theorem keyGT_negtrans (a b c : ℚ × ℕ × ℤ) (h1 : keyGT a b = false)
    (h2 : keyGT b c = false) : keyGT a c = false := by
  simp only [keyGT, decide_eq_false_iff_not] at h1 h2 ⊢
  push_neg at h1 h2
  rintro (hc1 | ⟨hc1, hc2 | ⟨hc2, hc3⟩⟩)
  · linarith [h1.1, h2.1]
  · have hab : a.1 = b.1 := le_antisymm h1.1 (by linarith [h2.1])
    have hbc : b.1 = c.1 := le_antisymm h2.1 (by linarith [h1.1])
    have q1 := (h1.2 hab).1
    have q2 := (h2.2 hbc).1
    omega
  · have hab : a.1 = b.1 := le_antisymm h1.1 (by linarith [h2.1])
    have hbc : b.1 = c.1 := le_antisymm h2.1 (by linarith [h1.1])
    have q1 := h1.2 hab
    have q2 := h2.2 hbc
    have r1 : a.2.1 = b.2.1 := by omega
    have r2 : b.2.1 = c.2.1 := by omega
    have s1 := q1.2 r1
    have s2 := q2.2 r2
    omega

theorem mem_insDescBy {α : Type} (gt : α → α → Bool) (x y : α) (l : List α)
    (h : y ∈ insDescBy gt x l) : y = x ∨ y ∈ l := by
  induction l with
  | nil => simpa [insDescBy] using h
  | cons a l ih =>
    simp only [insDescBy] at h
    by_cases hg : gt a x = true
    · rw [if_pos hg] at h
      rcases List.mem_cons.mp h with h | h
      · exact Or.inr (h ▸ List.mem_cons_self a l)
      · rcases ih h with h | h
        · exact Or.inl h
        · exact Or.inr (List.mem_cons_of_mem _ h)
    · rw [if_neg hg] at h
      rcases List.mem_cons.mp h with h | h
      · exact Or.inl h
      · exact Or.inr h

theorem sortDescBy_subset {α : Type} (gt : α → α → Bool) (l : List α) :
    ∀ y ∈ sortDescBy gt l, y ∈ l := by
  induction l with
  | nil => simp [sortDescBy]
  | cons a l ih =>
    intro y hy
    rcases mem_insDescBy gt a y _ hy with h | h
    · simp [h]
    · exact List.mem_cons_of_mem _ (ih y h)

theorem sortDescBy_eq_nil {α : Type} (gt : α → α → Bool) (l : List α)
    (h : sortDescBy gt l = []) : l = [] := by
  cases l with
  | nil => rfl
  | cons a l =>
    exfalso
    have hne : insDescBy gt a (sortDescBy gt l) ≠ [] := by
      cases sortDescBy gt l with
      | nil => simp [insDescBy]
      | cons b t => simp only [insDescBy]; split <;> simp
    exact hne h

/-- The head of the stable descending sort bears a maximal key: no input
element compares strictly greater. -/
theorem sortDescBy_head_max {α : Type} (gt : α → α → Bool)
    (hirr : ∀ x, gt x x = false)
    (hasym : ∀ x y, gt x y = true → gt y x = false)
    (hneg : ∀ x y z, gt x y = false → gt y z = false → gt x z = false)
    (l : List α) : ∀ (c : α) (t : List α), sortDescBy gt l = c :: t →
      ∀ x ∈ l, gt x c = false := by
  induction l with
  | nil => intro c t h; simp [sortDescBy] at h
  | cons a l ih =>
    intro c t h x hx
    rw [sortDescBy] at h
    cases hs : sortDescBy gt l with
    | nil =>
      rw [hs] at h
      simp only [insDescBy] at h
      have hl : l = [] := sortDescBy_eq_nil gt l hs
      have hac : a = c := by
        have := List.cons.injEq a [] c t ▸ h
        exact (List.cons.inj h).1
      rcases List.mem_cons.mp hx with rfl | hx
      · exact hac ▸ hirr x
      · rw [hl] at hx; cases hx
    | cons b t' =>
      rw [hs] at h
      simp only [insDescBy] at h
      by_cases hg : gt b a = true
      · rw [if_pos hg] at h
        have hbc : b = c := (List.cons.inj h).1
        rcases List.mem_cons.mp hx with rfl | hx
        · exact hbc ▸ hasym b x hg
        · exact hbc ▸ ih b t' hs x hx
      · rw [if_neg hg] at h
        have hac : a = c := (List.cons.inj h).1
        rcases List.mem_cons.mp hx with rfl | hx
        · exact hac ▸ hirr x
        · have hxb : gt x b = false := ih b t' hs x hx
          have hba : gt b a = false := by
            exact Bool.not_eq_true _ ▸ hg
          exact hac ▸ hneg x b a hxb hba

theorem entGT_irrefl (x : EntityT) : entGT x x = false := keyGT_irrefl _

theorem entGT_asymm (x y : EntityT) (h : entGT x y = true) : entGT y x = false :=
  keyGT_asymm _ _ h

theorem entGT_negtrans (x y z : EntityT) (h1 : entGT x y = false)
    (h2 : entGT y z = false) : entGT x z = false :=
  keyGT_negtrans _ _ _ h1 h2

/-- C7: among the cancer-lexicon candidates drawn from the filtered disease
entities, the primary cancer is a candidate whose key
`(score, text length, -begin)` — the fixed weights of `score_morphology`,
ties broken by longer text then earlier position — no other candidate
strictly exceeds, and `primary_cancer_histology_morphology` is its coded
preferred label when that is present (non-empty), otherwise its surface
text. -/
theorem c7_selection (ent : EntitiesT) (rels : RelationsT) (docText : Str)
    (h : primaryCancerCandidates docText ent ≠ []) :
    ∃ c, c ∈ primaryCancerCandidates docText ent ∧
      (∀ d ∈ primaryCancerCandidates docText ent,
        keyGT (entKey d) (entKey c) = false) ∧
      getK (extractTumorInfo ent rels docText)
          (s2l ("primary_cancer_histology_morphology")) =
        some (pyOrStr c.preferredText c.text) := by
  cases hs : sortedCancers docText ent with
  | nil =>
    exact absurd (sortDescBy_eq_nil entGT _ (by simpa [sortedCancers] using hs)) h
  | cons primary rest =>
    have hs' : sortDescBy entGT (primaryCancerCandidates docText ent) =
        primary :: rest := by simpa [sortedCancers] using hs
    refine ⟨primary, ?_, ?_, ?_⟩
    · exact sortDescBy_subset entGT _ primary (hs' ▸ List.mem_cons_self _ _)
    · intro d hd
      exact sortDescBy_head_max entGT entGT_irrefl entGT_asymm entGT_negtrans
        _ primary rest hs' d hd
    · simp only [extractTumorInfo, hs, optA, List.singleton_append]
      exact getK_cons_eq _ _ _

theorem c7_witness :
    ∃ c, c ∈ primaryCancerCandidates c7Doc c7Entities ∧
      (∀ d ∈ primaryCancerCandidates c7Doc c7Entities,
        keyGT (entKey d) (entKey c) = false) ∧
      getK (extractTumorInfo c7Entities relsEmpty c7Doc)
          (s2l ("primary_cancer_histology_morphology")) =
        some (pyOrStr c.preferredText c.text) :=
  c7_selection c7Entities relsEmpty c7Doc (by decide)

/-- C8: a disease entity preceded within 50 characters (clamped to the
document start) by any kinship marker — case-insensitive substring — is
excluded from the primary-cancer candidate set, regardless of its negation
status. -/
theorem c8_family_exclusion (docText : Str) (ent : EntitiesT) (e : EntityT)
    (_hmem : e ∈ ent.diseases)
    (h : ∃ mk ∈ familyMarkers,
      containsSub mk (lowerStr (sliceStr docText (e.beginPos - 50) e.beginPos))
        = true) :
    e ∉ primaryCancerCandidates docText ent := by
  obtain ⟨mk, hmk, hsub⟩ := h
  have hall : ∀ m ∈ familyMarkers, m ≠ [] := by decide
  have hfam : isFamilyHistoryMention docText e = true := by
    have hne : docText ≠ [] := by
      intro hdoc
      subst hdoc
      have hemp : containsSub mk [] = true := by
        simpa [sliceStr, lowerStr] using hsub
      cases hmkc : mk with
      | nil => exact hall mk hmk hmkc
      | cons c cs => rw [hmkc] at hemp; simp [containsSub, isPre] at hemp
    simp only [isFamilyHistoryMention, if_neg hne]
    exact List.any_eq_true.mpr ⟨mk, hmk, hsub⟩
  intro hc
  have h1 : e ∈ filteredDiseases docText ent :=
    (List.mem_filter.mp hc).1
  have h2 := (List.mem_filter.mp h1).2
  simp [hfam] at h2

theorem c8_witness :
    c8Ent ∉ primaryCancerCandidates c8Doc c8Entities :=
  c8_family_exclusion c8Doc c8Entities c8Ent (by decide)
    ⟨s2l ("sister"), by decide, by decide⟩

/-- C9: the stripped row set is always produced and the coded row set is
produced exactly when the CUI-file option is configured; every row of the
coded variant with a non-absent value whose field is not one of the three
CUI fields also appears, with the same value, in the stripped variant. -/
theorem c9_variants (cfg : ConfigT) (m : FMap) (src : Option Str) :
    ((generateCsv cfg m src).2.isSome = cfg.includeCuisFile) ∧
    (∀ f v coded, (generateCsv cfg m src).2 = some coded → (f, v) ∈ coded →
      v ≠ [] → f ∉ cuiFields → (f, v) ∈ (generateCsv cfg m src).1) := by
  constructor
  · simp only [generateCsv]
    cases cfg.includeCuisFile <;> simp
  · intro f v coded hc hmem hv hf
    simp only [generateCsv] at hc ⊢
    split at hc
    · replace hc := Option.some.inj hc
      subst hc
      rcases List.mem_cons.mp hmem with heq | hmap
      · exact heq ▸ List.mem_cons_self _ _
      · obtain ⟨fld, hfld, heq⟩ := List.mem_map.mp hmap
        have hfe : fld = f := (Prod.ext_iff.mp heq).1
        apply List.mem_cons_of_mem
        apply List.mem_map.mpr
        refine ⟨fld, List.mem_filter.mpr ⟨hfld, ?_⟩, heq⟩
        simp only [Bool.not_eq_true', List.any_eq_false, decide_eq_true_eq]
        intro x hx hxe
        exact hf (hfe ▸ hxe ▸ hx)
    · exact absurd hc (by simp)

theorem c9_witness :
    (s2l ("specimen_type"), s2l ("tissue")) ∈ (generateCsv c9Config c9Map none).1 :=
  (c9_variants c9Config c9Map none).2 (s2l ("specimen_type")) (s2l ("tissue")) _
    rfl (by decide) (by decide) (by decide)

theorem optA_key (k : Str) (v : Option Str) (kv : Str × Str) (h : kv ∈ optA k v) :
    kv.1 = k := by
  cases v with
  | none => simp [optA] at h
  | some s => simp only [optA, List.mem_singleton] at h; rw [h]

theorem singleton_key (k : Str) (v : Str) (kv : Str × Str)
    (h : kv ∈ [(k, v)]) : kv.1 = k := by
  simp only [List.mem_singleton] at h; rw [h]

theorem keys_tumorInfo (ent : EntitiesT) (rels : RelationsT) (docText : Str) :
    ∀ kv ∈ extractTumorInfo ent rels docText, kv.1 ∈ writableKeys := by
  intro kv h
  simp only [extractTumorInfo] at h
  split at h
  · cases h
  · rcases List.mem_append.mp h with h | h
    · rcases List.mem_append.mp h with h | h
      · rcases List.mem_append.mp h with h | h
        · rw [optA_key _ _ _ h]; decide
        · rw [optA_key _ _ _ h]; decide
      · rw [optA_key _ _ _ h]; decide
    · rw [optA_key _ _ _ h]; decide

theorem keys_medications (ent : EntitiesT) (asgs : List (Str × Str))
    (h : extractMedications ent = .ok asgs) :
    ∀ kv ∈ asgs, kv.1 ∈ writableKeys := by
  intro kv hkv
  simp only [extractMedications] at h
  split at h
  · cases h
  · injection h with h
    subst h
    split at hkv
    · cases hkv
    · rcases List.mem_append.mp hkv with h | h
      · rcases List.mem_append.mp h with h | h
        · rw [optA_key _ _ _ h]; decide
        · rw [optA_key _ _ _ h]; decide
      · split at h
        · cases h
        · rw [optA_key _ _ _ h]; decide

theorem keys_procedures (ent : EntitiesT) (rels : RelationsT) :
    ∀ kv ∈ extractProcedures ent rels, kv.1 ∈ writableKeys := by
  intro kv h
  simp only [extractProcedures] at h
  split at h
  · cases h
  · rcases List.mem_append.mp h with h | h
    · rcases List.mem_append.mp h with h | h
      · rw [optA_key _ _ _ h]; decide
      · split at h
        · cases h
        · rw [optA_key _ _ _ h]; decide
    · split at h
      · cases h
      · rw [optA_key _ _ _ h]; decide

theorem keys_specimen (ent : EntitiesT) (m : FMap) :
    ∀ kv ∈ extractSpecimenInfo ent m, kv.1 ∈ writableKeys := by
  intro kv h
  simp only [extractSpecimenInfo] at h
  split at h
  · cases h
  · rcases List.mem_append.mp h with h | h
    · rw [optA_key _ _ _ h]; decide
    · rw [optA_key _ _ _ h]; decide

theorem keys_markers (ent : EntitiesT) :
    ∀ kv ∈ extractTumorMarkers ent, kv.1 ∈ writableKeys := by
  intro kv h
  simp only [extractTumorMarkers] at h
  split at h
  · cases h
  · rw [optA_key _ _ _ h]; decide

theorem keys_tnm (docText : Str) :
    ∀ kv ∈ extractTnmStaging docText, kv.1 ∈ writableKeys := by
  intro kv h
  simp only [extractTnmStaging] at h
  split at h
  · cases h
  · rcases List.mem_append.mp h with h | h
    · rcases List.mem_append.mp h with h | h
      · rw [optA_key _ _ _ h]; decide
      · rw [optA_key _ _ _ h]; decide
    · rw [optA_key _ _ _ h]; decide

theorem keys_dims (docText : Str) :
    ∀ kv ∈ extractTumorDimensions docText, kv.1 ∈ writableKeys := by
  intro kv h
  simp only [extractTumorDimensions] at h
  split at h
  · cases h
  · split at h
    · rw [singleton_key _ _ _ h]; decide
    · split at h
      · rw [singleton_key _ _ _ h]; decide
      · cases h

theorem keys_radiotherapy (docText : Str) :
    ∀ kv ∈ extractRadiotherapyInfo docText, kv.1 ∈ writableKeys := by
  intro kv h
  simp only [extractRadiotherapyInfo] at h
  split at h
  · cases h
  · rcases List.mem_append.mp h with h | h
    · rcases List.mem_append.mp h with h | h
      · rcases List.mem_append.mp h with h | h
        · rw [optA_key _ _ _ h]; decide
        · rw [optA_key _ _ _ h]; decide
      · rw [optA_key _ _ _ h]; decide
    · rw [optA_key _ _ _ h]; decide

theorem keys_negated (ent : EntitiesT) (asgs : List (Str × Str))
    (h : extractNegatedFindings ent = .ok asgs) :
    ∀ kv ∈ asgs, kv.1 ∈ writableKeys := by
  intro kv hkv
  simp only [extractNegatedFindings] at h
  split at h
  · cases h
  · injection h with h
    subst h
    split at hkv
    · cases hkv
    · rw [singleton_key _ _ _ hkv]; decide

theorem keys_date (cfg : ConfigT) (orc : Ollama) (temporal : TemporalT)
    (sentences : List SentenceT) (ent : EntitiesT) :
    ∀ kv ∈ extractPrimaryCancerDate cfg orc temporal sentences ent,
      kv.1 ∈ writableKeys := by
  intro kv h
  simp only [extractPrimaryCancerDate] at h
  split at h
  · cases h
  · split at h
    · rw [singleton_key _ _ _ h]; decide
    · split at h
      · split at h
        · split at h
          · cases h
          · rw [singleton_key _ _ _ h]; decide
        · cases h
      · cases h

theorem setK_key_sub (m : FMap) (k v : Str) (kv : Str × Str)
    (h : kv ∈ setK m k v) : kv = (k, v) ∨ kv ∈ m := by
  induction m with
  | nil => simpa [setK] using h
  | cons p m ih =>
    simp only [setK] at h
    split at h
    · rcases List.mem_cons.mp h with h | h
      · exact Or.inl h
      · exact Or.inr (List.mem_cons_of_mem _ h)
    · rcases List.mem_cons.mp h with h | h
      · exact Or.inr (h ▸ List.mem_cons_self _ _)
      · rcases ih h with h | h
        · exact Or.inl h
        · exact Or.inr (List.mem_cons_of_mem _ h)

theorem applyAsgs_keys (asgs : List (Str × Str)) (m : FMap) (kv : Str × Str)
    (h : kv ∈ applyAsgs m asgs) :
    kv ∈ m ∨ kv.1 ∈ asgs.map Prod.fst := by
  induction asgs generalizing m with
  | nil => exact Or.inl (by simpa [applyAsgs] using h)
  | cons p asgs ih =>
    have h' : kv ∈ applyAsgs (setK m p.1 p.2) asgs := by
      simpa [applyAsgs] using h
    rcases ih (setK m p.1 p.2) h' with h1 | h1
    · rcases setK_key_sub _ _ _ _ h1 with h2 | h2
      · exact Or.inr (by simp [h2])
      · exact Or.inl h2
    · simp only [List.map_cons, List.mem_cons]
      exact Or.inr (Or.inr h1)

theorem keys_of_map {asgs : List (Str × Str)}
    (hall : ∀ kv ∈ asgs, kv.1 ∈ writableKeys) {k : Str}
    (h : k ∈ asgs.map Prod.fst) : k ∈ writableKeys := by
  obtain ⟨kv, hkv, rfl⟩ := List.mem_map.mp h
  exact hall kv hkv

/-- Every key of a field table produced by the pipeline is a key some
extractor writes. -/
theorem populate_keys (cfg : ConfigT) (orc : Ollama) (ent : EntitiesT)
    (rels : RelationsT) (temporal : TemporalT) (sentences : List SentenceT)
    (docText : Str) (m : FMap)
    (h : populateFromCtakes cfg orc ent rels temporal sentences docText = .ok m) :
    ∀ kv ∈ m, kv.1 ∈ writableKeys := by
  intro kv hkv
  simp only [populateFromCtakes] at h
  split at h
  · cases h
  · rename_i asg2 heq2
    split at h
    · cases h
    · rename_i asg9 heq9
      injection h with h
      subst h
      rcases applyAsgs_keys _ _ _ hkv with h1 | h1
      · rcases applyAsgs_keys _ _ _ h1 with h2 | h2
        · rcases applyAsgs_keys _ _ _ h2 with h3 | h3
          · rcases applyAsgs_keys _ _ _ h3 with h4 | h4
            · rcases applyAsgs_keys _ _ _ h4 with h5 | h5
              · rcases applyAsgs_keys _ _ _ h5 with h6 | h6
                · rcases applyAsgs_keys _ _ _ h6 with h7 | h7
                  · rcases applyAsgs_keys _ _ _ h7 with h8 | h8
                    · rcases applyAsgs_keys _ _ _ h8 with h9 | h9
                      · rcases applyAsgs_keys _ _ _ h9 with h10 | h10
                        · cases h10
                        · exact keys_of_map (keys_tumorInfo ent rels docText) h10
                      · exact keys_of_map (keys_medications ent asg2 heq2) h9
                    · exact keys_of_map (keys_procedures ent rels) h8
                  · exact keys_of_map (keys_specimen ent _) h7
                · exact keys_of_map (keys_markers ent) h6
              · exact keys_of_map (keys_tnm docText) h5
            · exact keys_of_map (keys_dims docText) h4
          · exact keys_of_map (keys_radiotherapy docText) h3
        · exact keys_of_map (keys_negated ent asg9 heq9) h2
      · exact keys_of_map (keys_date cfg orc temporal sentences ent) h1

theorem getK_eq_none_of_keys (m : FMap)
    (hall : ∀ kv ∈ m, kv.1 ∈ writableKeys) (f : Str)
    (hf : f ∉ writableKeys) : getK m f = none := by
  have hfind : m.find? (fun p => decide (p.1 = f)) = none := by
    apply List.find?_eq_none.mpr
    intro kv hkv
    simp only [decide_eq_true_eq]
    intro he
    exact hf (he ▸ hall kv hkv)
  simp [getK, hfind]

theorem mapFstPairs (g : Str → Str) (l : List Str) :
    (l.map (fun f => (f, g f))).map Prod.fst = l := by
  induction l with
  | nil => rfl
  | cons a l ih => simp [ih]

/-- C10: whenever the pipeline produces a field table, both row sets follow
the fixed schema in its fixed order — the coded variant is exactly the
28-field list, the stripped variant omits only the three CUI fields (25
fields), `source_file` comes first, the schema has no duplicate field — and
the four fields `patient_name`, `birth_date`, `gender`,
`tumor_marker_result_value` carry the empty value in both variants, because
no extractor ever writes them. -/
theorem c10_schema (cfg : ConfigT) (orc : Ollama) (ent : EntitiesT)
    (rels : RelationsT) (temporal : TemporalT) (sentences : List SentenceT)
    (docText : Str) (m : FMap) (src : Option Str)
    (h : populateFromCtakes cfg orc ent rels temporal sentences docText = .ok m) :
    ((generateCsv cfg m src).1.map Prod.fst =
        allFields.filter (fun f => !cuiFields.any (· = f))) ∧
    (∀ coded, (generateCsv cfg m src).2 = some coded →
      coded.map Prod.fst = allFields) ∧
    (allFields.length = 28 ∧
      (allFields.filter (fun f => !cuiFields.any (· = f))).length = 25 ∧
      allFields.Nodup) ∧
    ((generateCsv cfg m src).1.head? = some (s2l ("source_file"), pyOptStr src)) ∧
    (∀ f ∈ neverWrittenFields,
      (f, ([] : Str)) ∈ (generateCsv cfg m src).1 ∧
      ∀ coded, (generateCsv cfg m src).2 = some coded → (f, ([] : Str)) ∈ coded) := by
  have hkeys := populate_keys cfg orc ent rels temporal sentences docText m h
  refine ⟨?_, ?_, by decide, ?_, ?_⟩
  · simp only [generateCsv, List.map_cons]
    rw [mapFstPairs (fun f => pyOptStr (getK m f))]
    decide
  · intro coded hc
    simp only [generateCsv] at hc
    split at hc
    · injection hc with hc
      subst hc
      simp only [List.map_cons]
      rw [mapFstPairs (fun f => pyOptStr (getK m f))]
      decide
    · cases hc
  · simp only [generateCsv]
    rfl
  · intro f hf
    constructor
    · simp only [generateCsv]
      refine List.mem_cons_of_mem _ (List.mem_map.mpr ⟨f, ?_, ?_⟩)
      · fin_cases hf <;> decide
      · rw [getK_eq_none_of_keys m hkeys f (by fin_cases hf <;> decide)]
        rfl
    · intro coded hc
      simp only [generateCsv] at hc
      split at hc
      · injection hc with hc
        subst hc
        refine List.mem_cons_of_mem _ (List.mem_map.mpr ⟨f, ?_, ?_⟩)
        · fin_cases hf <;> decide
        · rw [getK_eq_none_of_keys m hkeys f (by fin_cases hf <;> decide)]
          rfl
      · cases hc

theorem c10_witness :
    populateFromCtakes c10Config errOracle entsEmpty relsEmpty temporalEmpty [] []
      = .ok [] ∧
    (generateCsv c10Config ([] : FMap) none).1.map Prod.fst =
      allFields.filter (fun f => !cuiFields.any (· = f)) ∧
    (s2l ("patient_name"), ([] : Str)) ∈ (generateCsv c10Config ([] : FMap) none).1 := by
  refine ⟨rfl, ?_, ?_⟩
  · exact (c10_schema c10Config errOracle entsEmpty relsEmpty temporalEmpty [] []
      [] none rfl).1
  · exact ((c10_schema c10Config errOracle entsEmpty relsEmpty temporalEmpty [] []
      [] none rfl).2.2.2.2 _ (by decide)).1
